import Mathlib

/-!
Shallow embedding of the word-template tool (templates, records, dual storage
backends, pack import/export, document data preparation), translated from the
repository's JavaScript sources:

  src/js/word.js, src/js/template.js, src/js/storage.js,
  src/js/storage-adapter.js, src/js/storage-file.js, src/js/export.js,
  and the delete-template UI handler in src/unnamed/part_000.

Modelling conventions:
  * JavaScript scalar values (string / number / null) are `JValue`; an absent
    object property is `Option.none`.
  * JavaScript objects with scalar values are association lists (`Obj`) with
    JS semantics: property update replaces in place, fresh keys append.
  * ISO-8601 timestamps are represented by `Nat` (epoch milliseconds); the
    ISO encoding is order-isomorphic to this, which is all the code uses
    (`new Date(x) - new Date(y)` comparisons and equality).
  * `async`/`await` sequencing is direct state passing; each call to
    `Storage.getTimestamp()` / `Storage.generateId()` becomes an explicit
    parameter of the function that performs it.
  * Exceptions become `Except String`.
-/

/-- A JavaScript scalar value: `null`, a string, or a number. -/
inductive JValue where
  | null
  | str (s : String)
  | num (n : Int)
  deriving DecidableEq, Repr

section AList

variable {α : Type}

/-- Property read `o[k]` on a JS object modelled as an association list in
insertion order; `none` models JS `undefined`. -/
def alistGet (o : List (String × α)) (k : String) : Option α :=
  (o.find? (fun p => p.1 = k)).map (·.2)

/-- Property write `o[k] = v`: replaces the existing binding in place,
otherwise appends (JS insertion-order semantics; a JS object holds at most
one binding per key). -/
def alistSet : List (String × α) → String → α → List (String × α)
  | [], k, v => [(k, v)]
  | p :: t, k, v => if p.1 = k then (k, v) :: t else p :: alistSet t k v

end AList

/-- A JS object whose property values are scalars. -/
abbrev Obj := List (String × JValue)

/-- Property read `o[k]` (src semantics: JS member access). -/
abbrev objGet (o : Obj) (k : String) : Option JValue := alistGet o k

/-- Property write `o[k] = v`. -/
abbrev objSet (o : Obj) (k : String) (v : JValue) : Obj := alistSet o k v

namespace WT

/-- A field of a template (`createEmptyField` in src/js/template.js). -/
structure Field where
  id : String
  key : String
  label : String
  type : String
  required : Bool
  order : Nat
  deriving DecidableEq, Repr

/-- A detail-table column (`createEmptyColumn` in src/js/template.js). -/
structure Column where
  id : String
  key : String
  label : String
  type : String
  deriving DecidableEq, Repr

/-- A detail table (`createEmptyDetailTable` in src/js/template.js). -/
structure DTable where
  id : String
  name : String
  columns : List Column
  deriving DecidableEq, Repr

/-- The uploaded word document: `{name, data}` with `data` the base64 /
data-URL payload (src/js/template.js `readFileAsBase64`). -/
structure WordFile where
  name : String
  data : String
  deriving DecidableEq, Repr

/-- A template (`createEmptyTemplate` in src/js/template.js).  `none` in
`id` / `createdAt` / `updatedAt` models JS `null`. -/
structure Template where
  id : Option String
  name : String
  description : String
  titleFieldKey : String
  wordFile : Option WordFile
  fields : List Field
  detailTables : List DTable
  createdAt : Option Nat
  updatedAt : Option Nat
  deriving DecidableEq, Repr

/-- A filled record.  `data` maps field keys to scalars, `tables` maps
detail-table names to lists of row objects. -/
structure Rec where
  id : Option String
  templateId : Option String
  fileName : Option String
  data : Obj
  tables : List (String × List Obj)
  createdAt : Option Nat
  updatedAt : Option Nat
  deriving DecidableEq, Repr

end WT

open WT

/-! ## src/js/word.js — document data preparation -/

namespace Word

/-- A value of the object handed to the generation library: either a scalar
(ordinary field) or an array of row objects (detail-table loop data). -/
inductive OutVal where
  | scalar (v : JValue)
  | rows (rs : List Obj)
  deriving DecidableEq, Repr

/-- The prepared data object (mixed scalar / row-array values). -/
abbrev OutObj := List (String × OutVal)

/-- Read a property of the prepared object. -/
abbrev outGet (o : OutObj) (k : String) : Option OutVal := alistGet o k

/-- Write a property of the prepared object (JS object semantics). -/
abbrev outSet (o : OutObj) (k : String) (v : OutVal) : OutObj := alistSet o k v

/-- One table cell (src/js/word.js lines 44-48): `undefined`, `null` and
`''` all become `''` (both branches of the conditional produce `''`),
any other value is kept. -/
def processCell (v : Option JValue) : JValue :=
  match v with
  | none => .str ""
  | some .null => .str ""
  | some (.str "") => .str ""
  | some v => v

/-- One processed detail-table row (src/js/word.js lines 41-51): a fresh
object holding exactly the configured column keys. -/
def processRow (tc : DTable) (row : Obj) : Obj :=
  tc.columns.foldl (fun acc col => objSet acc col.key (processCell (objGet row col.key))) []

/-- Lookup `tableData[tableName] || []` (absent or `null` gives `[]`). -/
def tableRows (tableData : List (String × List Obj)) (name : String) : List Obj :=
  ((tableData.find? (fun p => p.1 = name)).map (·.2)).getD []

/-- One iteration of the detail-table loop (src/js/word.js lines 37-53):
`data[tableName] = rows.map(...)`. -/
def tableStep (tableData : List (String × List Obj)) (d : OutObj) (tc : DTable) : OutObj :=
  outSet d tc.name (.rows ((tableRows tableData tc.name).map (processRow tc)))

/-- One iteration of the plain-field loop (src/js/word.js lines 57-61):
`if (data[key] === undefined || data[key] === null) data[key] = ''`. -/
def fieldStep (d : OutObj) (f : Field) : OutObj :=
  match outGet d f.key with
  | none => outSet d f.key (.scalar (.str ""))
  | some (.scalar .null) => outSet d f.key (.scalar (.str ""))
  | some _ => d

/-- `prepareDataForWord(fieldData, tableData, template)`
(src/js/word.js lines 32-64).  Starts from a copy of `fieldData`, then for
every configured detail table sets the table name to the mapped rows, then
replaces every absent-or-null configured field key by `''`.
`tableData` is always an object at the call sites (`generateWord` defaults it
to `{}`), so the `template.detailTables && tableData` guard is true and the
table loop always runs.  The function is total by construction. -/
def prepareDataForWord (fieldData : Obj) (tableData : List (String × List Obj))
    (t : Template) : OutObj :=
  let data0 : OutObj := fieldData.map (fun p => (p.1, OutVal.scalar p.2))
  let data1 := t.detailTables.foldl (tableStep tableData) data0
  t.fields.foldl fieldStep data1

/-- The value the spec expects at a configured field key: the supplied value,
or the empty string when it is absent or `null`. -/
def fieldOut (v : Option JValue) : OutVal :=
  match v with
  | none => .scalar (.str "")
  | some .null => .scalar (.str "")
  | some v => .scalar v

/-- What `fieldStep` leaves at its own key, as a function of the old value. -/
def fieldPatch (v : Option OutVal) : OutVal :=
  match v with
  | none => .scalar (.str "")
  | some (.scalar .null) => .scalar (.str "")
  | some v => v

end Word

/-! ## src/js/template.js — placeholder extraction and consistency check -/

namespace Template

/-- JS `Set.add` on a string set modelled as an insertion-ordered duplicate-free
list: adding an existing element is a no-op, a new element appends. -/
def setAdd (s : List String) (x : String) : List String :=
  if x ∈ s then s else s ++ [x]

/-- The JS `Set` built by adding the elements of `l` in order. -/
def setOfList (l : List String) : List String := l.foldl setAdd []

/-- JS `String.prototype.trim()`: strip whitespace from both ends.  The
document text only carries ordinary whitespace (space / tab / CR / LF),
captured by `Char.isWhitespace`. -/
def jsTrim (s : String) : String :=
  (((s.toList.dropWhile Char.isWhitespace).reverse.dropWhile Char.isWhitespace).reverse).asString

/-- JS `s.startsWith(c)` for a single-character prefix: test the first
character. -/
def startsWithChar (s : String) (c : Char) : Bool :=
  match s.toList with
  | [] => false
  | c0 :: _ => c0 = c

/-- State of the scan for the regex `/\x7b([^\x7b\x7d]+)\x7d/g`
(src/js/template.js line 186): either outside a candidate match, or inside
one with the run of non-brace characters read since the last `\x7b`. -/
def scanStep (st : List String × Option (List Char)) (c : Char) :
    List String × Option (List Char) :=
  match st with
  | (found, none) => if c = '{' then (found, some []) else (found, none)
  | (found, some run) =>
      if c = '}' then
        (if run.isEmpty then found else found ++ [run.asString], none)
      else if c = '{' then (found, some [])
      else (found, some (run ++ [c]))

/-- All capture groups of `/\x7b([^\x7b\x7d]+)\x7d/g` over `text`, in order:
the non-overlapping maximal single-level brace groups with a non-empty
brace-free body (src/js/template.js lines 186-189). -/
def scanBraceTags (text : String) : List String :=
  (text.toList.foldl scanStep ([], none)).1

/-- `extractPlaceholdersFromWord(fileData)` (src/js/template.js lines
171-201).  The external `PizZip` / `docxtemplater` construction and
`getFullText()` are modelled by the `Except` argument: `.ok text` is the
document's full text, `.error` any exception the libraries throw.  The
whole body is inside `try { ... } catch { }`, so a library exception is
swallowed and the placeholder set collected so far — which is empty, as
nothing was added before the parse — is returned.  On success, every regex
capture is trimmed and kept unless it starts with `#` or `/` (loop
markers), then added to the set. -/
def extractPlaceholdersFromWord (parsed : Except String String) : List String :=
  match parsed with
  | .error _ => []
  | .ok text =>
      setOfList (((scanBraceTags text).map jsTrim).filter
        (fun tag => !(startsWithChar tag '#') && !(startsWithChar tag '/')))

/-- The configured key set of `checkTemplateConsistency` (src/js/template.js
lines 235-245): a JS `Set` holding all field keys, then all detail-table
column keys. -/
def configKeys (t : Template) : List String :=
  setOfList (t.fields.map (·.key) ++ t.detailTables.flatMap (fun tb => tb.columns.map (·.key)))

/-- Result object of `checkTemplateConsistency` (src/js/template.js lines
209-214): the three comparison arrays, `valid`, and the optional `error`
property set on failure paths. -/
structure ConsistencyResult where
  matched : List String
  missingInWord : List String
  missingInConfig : List String
  valid : Bool
  error : Option String
  deriving DecidableEq, Repr

/-- Outcome of obtaining the document text in `checkTemplateConsistency`:
`decodeFail` models an exception while turning the base64 payload into bytes
(`split` / `atob` / byte loop, thrown inside the function's own `try`),
`parseFail` an exception thrown by the external document parser (inside
`extractPlaceholdersFromWord`, which swallows it), `ok text` a successful
parse with full text `text`. -/
inductive DocOutcome where
  | decodeFail
  | parseFail
  | ok (text : String)

/-- The comparison part of `checkTemplateConsistency` (src/js/template.js
lines 247-262): `forEach`-push the configured keys into `matched` /
`missingInWord`, the extracted placeholders into `missingInConfig`, and set
`valid`. -/
def compareKeys (t : Template) (wordPlaceholders : List String) : ConsistencyResult :=
  let cfg := configKeys t
  let mm :=
    cfg.foldl
      (fun (acc : List String × List String) key =>
        if key ∈ wordPlaceholders then (acc.1 ++ [key], acc.2) else (acc.1, acc.2 ++ [key]))
      ([], [])
  let missingInConfig :=
    wordPlaceholders.foldl (fun acc ph => if ph ∈ cfg then acc else acc ++ [ph]) []
  { matched := mm.1
    missingInWord := mm.2
    missingInConfig := missingInConfig
    valid := mm.2.isEmpty && missingInConfig.isEmpty
    error := none }

/-- `checkTemplateConsistency(template)` (src/js/template.js lines 208-271).
A missing or empty word payload and a decode failure set `error` and
`valid = false`; a parse failure inside `extractPlaceholdersFromWord` is
swallowed there, so the comparison proceeds against the empty placeholder
set. -/
def checkTemplateConsistency (t : Template) (outcome : DocOutcome) : ConsistencyResult :=
  match t.wordFile with
  | none => ⟨[], [], [], false, some "请先上传 Word 模板文件"⟩
  | some wf =>
    if wf.data = "" then ⟨[], [], [], false, some "请先上传 Word 模板文件"⟩
    else
      match outcome with
      | .decodeFail => ⟨[], [], [], false, some "模板自检失败，请检查 Word 文件格式是否正确"⟩
      | .parseFail => compareKeys t (extractPlaceholdersFromWord (.error "parse failed"))
      | .ok text => compareKeys t (extractPlaceholdersFromWord (.ok text))

end Template

/-! ## src/js/storage.js — the IndexedDB-backed browser store -/

/-- The descending `updatedAt` order used by the template list sorts
(`storage.js` line 130, `storage-file.js` line 215): the JS comparator is
`new Date(b.updatedAt) - new Date(a.updatedAt)`. -/
def updatedDesc (a b : Template) : Prop := b.updatedAt.getD 0 ≤ a.updatedAt.getD 0

/-- The descending `createdAt` order used by the record list sorts
(`storage.js` lines 250 and 278). -/
def createdDesc (a b : Rec) : Prop := b.createdAt.getD 0 ≤ a.createdAt.getD 0

instance : DecidableRel updatedDesc := fun _ _ => Nat.decLe _ _

instance : DecidableRel createdDesc := fun _ _ => Nat.decLe _ _

instance : IsTotal Template updatedDesc := ⟨fun a b => Nat.le_total (b.updatedAt.getD 0) (a.updatedAt.getD 0)⟩

instance : IsTrans Template updatedDesc := ⟨fun _ _ _ hab hbc => Nat.le_trans hbc hab⟩

instance : IsTotal Rec createdDesc := ⟨fun a b => Nat.le_total (b.createdAt.getD 0) (a.createdAt.getD 0)⟩

instance : IsTrans Rec createdDesc := ⟨fun _ _ _ hab hbc => Nat.le_trans hbc hab⟩

namespace Storage

/-- IndexedDB `store.put` on a collection with `keyPath: 'id'`: replaces the
object stored under the same key, otherwise adds it.  The collection is the
list of stored objects. -/
def putTemplate (store : List Template) (t : Template) : List Template :=
  if store.any (fun u => u.id = t.id) then
    store.map (fun u => if u.id = t.id then t else u)
  else store ++ [t]

/-- IndexedDB `store.put` for the records collection. -/
def putRecord (store : List Rec) (r : Rec) : List Rec :=
  if store.any (fun u => u.id = r.id) then
    store.map (fun u => if u.id = r.id then r else u)
  else store ++ [r]

/-- `saveTemplate(template)` (src/js/storage.js lines 87-114): build
`templateData` with `id`/`createdAt` defaulted and `updatedAt` refreshed,
`put` it and resolve with `templateData`.  `gid` models the `generateId()`
call, `now` the `getTimestamp()` call. -/
def saveTemplate (gid : String) (now : Nat) (t : Template) (store : List Template) :
    Template × List Template :=
  let td := { t with id := some (t.id.getD gid)
                     createdAt := some (t.createdAt.getD now)
                     updatedAt := some now }
  (td, putTemplate store td)

/-- `getAllTemplates()` (src/js/storage.js lines 120-140): everything in the
store, sorted by `updatedAt` descending.  `Array.prototype.sort` with a
total comparator returns a sorted permutation; it is modelled by
(stable) insertion sort. -/
def getAllTemplates (store : List Template) : List Template :=
  List.insertionSort updatedDesc store

/-- `getTemplateById(id)` (src/js/storage.js lines 147-163): `store.get`. -/
def getTemplateById (store : List Template) (id : String) : Option Template :=
  store.find? (fun t => t.id = some id)

/-- `deleteTemplate(id)` (src/js/storage.js lines 170-186): `store.delete`.
No record is touched: the browser backend does not cascade. -/
def deleteTemplate (store : List Template) (id : String) : List Template :=
  store.filter (fun t => ¬ t.id = some id)

/-- `saveRecord(record)` (src/js/storage.js lines 208-234). -/
def saveRecord (gid : String) (now : Nat) (r : Rec) (store : List Rec) :
    Rec × List Rec :=
  let rd := { r with id := some (r.id.getD gid)
                     createdAt := some (r.createdAt.getD now)
                     updatedAt := some now }
  (rd, putRecord store rd)

/-- `getAllRecords()` (src/js/storage.js lines 240-260): sorted by
`createdAt` descending. -/
def getAllRecords (store : List Rec) : List Rec :=
  List.insertionSort createdDesc store

/-- `getRecordsByTemplateId(templateId)` (src/js/storage.js lines 267-288):
`index('templateId').getAll(templateId)` — the stored records whose
`templateId` equals the argument — sorted by `createdAt` descending. -/
def getRecordsByTemplateId (store : List Rec) (tid : String) : List Rec :=
  List.insertionSort createdDesc (store.filter (fun r => r.templateId = some tid))

/-- `getRecordById(id)` (src/js/storage.js lines 295-311). -/
def getRecordById (store : List Rec) (id : String) : Option Rec :=
  store.find? (fun r => r.id = some id)

/-- `deleteRecord(id)` (src/js/storage.js lines 318-334). -/
def deleteRecord (store : List Rec) (id : String) : List Rec :=
  store.filter (fun r => ¬ r.id = some id)

/-- `deleteRecordsByTemplateId(templateId)` (src/js/storage.js lines
341-347): fetch the template's records, then delete each by its id.  A
stored record always carries an id (the store's key); the `none` branch is
unreachable for states produced by `saveRecord`. -/
def deleteRecordsByTemplateId (store : List Rec) (tid : String) : List Rec :=
  (getRecordsByTemplateId store tid).foldl
    (fun s r => match r.id with
                | some i => deleteRecord s i
                | none => s)
    store

end Storage

/-! ## src/js/storage-file.js — the File System Access backend -/

namespace FileStorage

/-- The authorized workspace directory tree.  `templates` is the
`templates/` folder (file base name, parsed template); `records` is the
`records/` folder (one subfolder per templateId, each a list of (file base
name, parsed record)).  File handles and JSON serialization are abstracted
away: a file is represented by its parsed content. -/
structure Workspace where
  templates : List (String × Template)
  records : List (String × List (String × Rec))
  deriving DecidableEq, Repr

/-- `getWorkspace()` (src/js/storage-file.js lines 132-145): return the
cached module handle or the one re-loaded from the auxiliary IndexedDB
(together modelled by the `Option`), else throw the no-workspace error. -/
def getWorkspace (ws : Option Workspace) : Except String Workspace :=
  match ws with
  | some w => .ok w
  | none => .error "未设置工作区，请先选择工作区文件夹"

/-- `selectWorkspace()` (src/js/storage-file.js lines 13-41): throws the
unsupported-environment error when the browser lacks `showDirectoryPicker`,
otherwise yields the user-picked directory. -/
def selectWorkspace (supportsFS : Bool) (picked : Workspace) : Except String Workspace :=
  if supportsFS then .ok picked
  else .error "您的浏览器不支持本地文件系统访问，请使用 Chrome 86+ 或 Edge 86+"

/-- `saveTemplateToFile(template)` (src/js/storage-file.js lines 166-188):
write `templates/<id>.json`; any failure — including the no-workspace throw
of `getWorkspace` — is wrapped as `保存模板失败: <message>`. -/
def saveTemplateToFile (ws : Option Workspace) (t : Template) :
    Except String (Template × Workspace) :=
  match getWorkspace ws with
  | .error e => .error ("保存模板失败: " ++ e)
  | .ok w => .ok (t, { w with templates := alistSet w.templates (t.id.getD "null") t })

/-- `loadTemplatesFromFiles()` (src/js/storage-file.js lines 193-223): list
the `templates/` folder sorted by `updatedAt` descending; ANY failure —
including the no-workspace throw — is caught and an empty array returned. -/
def loadTemplatesFromFiles (ws : Option Workspace) : List Template :=
  match getWorkspace ws with
  | .error _ => []
  | .ok w => List.insertionSort updatedDesc (w.templates.map (·.2))

/-- `loadTemplateFromFile(templateId)` (src/js/storage-file.js lines
228-244): read `templates/<id>.json`; any failure — a missing file or the
no-workspace throw — is rethrown as `模板不存在`. -/
def loadTemplateFromFile (ws : Option Workspace) (tid : String) : Except String Template :=
  match getWorkspace ws with
  | .error _ => .error "模板不存在"
  | .ok w =>
    match alistGet w.templates tid with
    | some t => .ok t
    | none => .error "模板不存在"

/-- `deleteTemplateFile(templateId)` (src/js/storage-file.js lines 249-262):
`removeEntry` of `templates/<id>.json`; a missing file (NotFoundError) or
the no-workspace throw is rethrown as `删除模板失败`. -/
def deleteTemplateFile (ws : Option Workspace) (tid : String) : Except String Workspace :=
  match getWorkspace ws with
  | .error _ => .error "删除模板失败"
  | .ok w =>
    match alistGet w.templates tid with
    | some _ => .ok { w with templates := w.templates.filter (fun p => ¬ p.1 = tid) }
    | none => .error "删除模板失败"

/-- `saveRecordToFile(record)` (src/js/storage-file.js lines 271-296): write
`records/<templateId>/<id>.json`, creating the subfolder; failures are
wrapped as `保存记录失败: <message>`. -/
def saveRecordToFile (ws : Option Workspace) (r : Rec) :
    Except String (Rec × Workspace) :=
  match getWorkspace ws with
  | .error e => .error ("保存记录失败: " ++ e)
  | .ok w =>
    let tkey := r.templateId.getD "undefined"
    let folder := (alistGet w.records tkey).getD []
    .ok (r, { w with records := alistSet w.records tkey (alistSet folder (r.id.getD "null") r) })

/-- `loadRecordsFromFiles(templateId?)` (src/js/storage-file.js lines
301-353): with a templateId, the files of `records/<templateId>/` (a missing
subfolder is an empty result); without, the files of every subfolder.  No
sorting.  ANY failure — including the no-workspace throw — yields `[]`. -/
def loadRecordsFromFiles (ws : Option Workspace) (tid : Option String) : List Rec :=
  match getWorkspace ws with
  | .error _ => []
  | .ok w =>
    match tid with
    | some t => ((alistGet w.records t).getD []).map (·.2)
    | none => w.records.flatMap (fun p => p.2.map (·.2))

/-- `deleteRecordFile(record)` (src/js/storage-file.js lines 358-372):
remove `records/<templateId>/<id>.json`; failures become `删除记录失败`. -/
def deleteRecordFile (ws : Option Workspace) (r : Rec) : Except String Workspace :=
  match getWorkspace ws with
  | .error _ => .error "删除记录失败"
  | .ok w =>
    let tkey := r.templateId.getD "undefined"
    match alistGet w.records tkey with
    | none => .error "删除记录失败"
    | some folder =>
      match alistGet folder (r.id.getD "null") with
      | none => .error "删除记录失败"
      | some _ =>
        .ok { w with records := alistSet w.records tkey
                                  (folder.filter (fun p => ¬ p.1 = r.id.getD "null")) }

/-- `deleteRecordsByTemplateId(templateId)` (src/js/storage-file.js lines
377-392): `removeEntry(templateId, recursive)` on `records/`; a missing
subfolder (NotFoundError) counts as success, while the no-workspace throw is
rethrown as `删除记录失败`. -/
def deleteRecordsByTemplateId (ws : Option Workspace) (tid : String) :
    Except String Workspace :=
  match getWorkspace ws with
  | .error _ => .error "删除记录失败"
  | .ok w => .ok { w with records := w.records.filter (fun p => ¬ p.1 = tid) }

end FileStorage

/-! ## src/js/storage-adapter.js — the facade -/

namespace StorageAdapter

/-- The module-level `storageMode` variable. -/
inductive StorageMode where
  | file
  | browser
  deriving DecidableEq, Repr

/-- The state the adapter routes over: the current mode, the browser
backend's two collections, and the (possibly unauthorized) file workspace. -/
structure AppState where
  mode : StorageMode
  btemplates : List Template
  brecords : List Rec
  ws : Option FileStorage.Workspace
  deriving DecidableEq, Repr

/-- `saveTemplate(template)` (src/js/storage-adapter.js lines 57-72) in
browser mode: default `id`/`createdAt`, stamp `updatedAt`, then delegate to
`Storage.saveTemplate`, which re-applies the same defaults with its own
fresh timestamp `now2` (the id and `createdAt` set here are kept since they
are no longer falsy).  `gid` models the adapter's `generateId()` call,
`gid2` the backend's (unused because the id is set by then). -/
def saveTemplate (gid gid2 : String) (now1 now2 : Nat) (t : Template)
    (store : List Template) : Template × List Template :=
  let t1 := { t with id := some (t.id.getD gid)
                     createdAt := some (t.createdAt.getD now1)
                     updatedAt := some now1 }
  Storage.saveTemplate gid2 now2 t1 store

/-- `saveRecord(record)` (src/js/storage-adapter.js lines 112-127) in
browser mode, analogous to `saveTemplate`. -/
def saveRecord (gid gid2 : String) (now1 now2 : Nat) (r : Rec)
    (store : List Rec) : Rec × List Rec :=
  let r1 := { r with id := some (r.id.getD gid)
                     createdAt := some (r.createdAt.getD now1)
                     updatedAt := some now1 }
  Storage.saveRecord gid2 now2 r1 store

/-- `getRecordsByTemplateId(templateId)` (src/js/storage-adapter.js lines
143-149): route to the active backend. -/
def getRecordsByTemplateId (st : AppState) (tid : String) : List Rec :=
  match st.mode with
  | .file => FileStorage.loadRecordsFromFiles st.ws (some tid)
  | .browser => Storage.getRecordsByTemplateId st.brecords tid

/-- The primitive destructive operations issued during a delete-template
action, in issue order. -/
inductive DeleteOp where
  | browserRecordDelete (recId : String)
  | browserTemplateDelete (tid : String)
  | fileTemplateDelete (tid : String)
  | fileRecordsFolderDelete (tid : String)
  deriving DecidableEq, Repr

/-- `deleteTemplate(id)` (src/js/storage-adapter.js lines 99-107), state
part: in file mode, `deleteTemplateFile` THEN `deleteRecordsByTemplateId`
(each awaited, errors propagate); in browser mode, `Storage.deleteTemplate`
only. -/
def deleteTemplate (st : AppState) (tid : String) : Except String AppState :=
  match st.mode with
  | .file =>
    match FileStorage.deleteTemplateFile st.ws tid with
    | .error e => .error e
    | .ok w1 =>
      match FileStorage.deleteRecordsByTemplateId (some w1) tid with
      | .error e => .error e
      | .ok w2 => .ok { st with ws := some w2 }
  | .browser => .ok { st with btemplates := Storage.deleteTemplate st.btemplates tid }

/-- The operations `StorageAdapter.deleteTemplate` issues, in order: in file
mode the template file is removed first, then the record folder. -/
def deleteTemplateOps (mode : StorageMode) (tid : String) : List DeleteOp :=
  match mode with
  | .file => [.fileTemplateDelete tid, .fileRecordsFolderDelete tid]
  | .browser => [.browserTemplateDelete tid]

end StorageAdapter

/-! ## The delete-template UI action (src/unnamed/part_000 lines 363-374) -/

namespace App

open StorageAdapter

/-- The confirm-button handler body, state part:
`await Storage.deleteRecordsByTemplateId(templateId)` — always the browser
backend — then `await StorageAdapter.deleteTemplate(templateId)`. -/
def confirmDeleteTemplateRun (st : AppState) (tid : String) : Except String AppState :=
  let st1 := { st with brecords := Storage.deleteRecordsByTemplateId st.brecords tid }
  StorageAdapter.deleteTemplate st1 tid

/-- The operations the handler issues, in issue order: one browser record
delete per record of the template in the browser store, then the adapter's
mode-dependent operations. -/
def confirmDeleteTemplateTrace (st : AppState) (tid : String) : List DeleteOp :=
  ((Storage.getRecordsByTemplateId st.brecords tid).map
      (fun r => DeleteOp.browserRecordDelete (r.id.getD "")))
    ++ deleteTemplateOps st.mode tid

/-- Is this operation the deletion of template `tid` itself? -/
def isTemplateDeleteOp (tid : String) : DeleteOp → Bool
  | .browserTemplateDelete t => t = tid
  | .fileTemplateDelete t => t = tid
  | _ => false

/-- Is this operation a deletion of records belonging to the action on
template `tid`?  (Every `browserRecordDelete` in a delete-template trace
targets a record of that template by construction of the handler.) -/
def isRecDeleteOp (tid : String) : DeleteOp → Bool
  | .browserRecordDelete _ => true
  | .fileRecordsFolderDelete t => t = tid
  | _ => false

/-- The ordering property the claim asserts of a delete-template trace:
every record-deleting operation precedes the template-deleting operation. -/
def recordDeletesPrecedeTemplateDelete (trace : List DeleteOp) (tid : String) : Prop :=
  ∀ i j : Fin trace.length,
    isTemplateDeleteOp tid (trace.get i) → isRecDeleteOp tid (trace.get j) → j < i

instance (trace : List DeleteOp) (tid : String) :
    Decidable (recordDeletesPrecedeTemplateDelete trace tid) := by
  unfold recordDeletesPrecedeTemplateDelete
  infer_instance

end App

/-! ## src/js/export.js — pack import/export -/

namespace Export

/-- A parsed template pack (src/js/export.js `createTemplatePack`): `type`
is `""` for a missing/falsy `type` property, `template` is `none` when the
`template` property is absent. -/
structure TemplatePack where
  version : String
  type : String
  template : Option Template
  deriving DecidableEq, Repr

/-- The caller-selected conflict strategy of `importTemplatePack`. -/
inductive ConflictStrategy where
  | overwrite
  | rename
  | skip
  deriving DecidableEq, Repr

/-- The resolved outcome of `importTemplatePack`: the `action` string of the
result object and the saved template (`none` when skipped). -/
structure ImportTemplateResult where
  action : String
  template : Option Template
  deriving DecidableEq, Repr

/-- `importTemplatePack(file, options)` (src/js/export.js lines 84-157),
with the adapter in browser mode.  `gid` models the import-level
`generateId()` call, `gid2`/`now1`/`now2` the id/timestamp calls inside
`StorageAdapter.saveTemplate`, `suffix` the `MMDDHHmm` date suffix of the
rename strategy.  Invalid packs reject with the wrapped format error. -/
def importTemplatePack (pack : TemplatePack) (strategy : ConflictStrategy)
    (gid gid2 suffix : String) (now1 now2 : Nat) (store : List Template) :
    Except String (ImportTemplateResult × List Template) :=
  match pack.template with
  | none => .error "导入模板包失败: 无效的模板包格式"
  | some template =>
    if pack.type = "" ∨ pack.type ≠ "template" then
      .error "导入模板包失败: 无效的模板包格式"
    else
      let existingTemplates := Storage.getAllTemplates store
      let existingByName := existingTemplates.find? (fun t => t.name = template.name)
      let existingById := existingTemplates.find? (fun t => t.id = template.id)
      if existingById.isSome ∨ existingByName.isSome then
        match strategy with
        | .overwrite =>
          let ft := { template with id := (existingById.bind (·.id)).or (existingByName.bind (·.id)) }
          let saved := StorageAdapter.saveTemplate gid2 gid2 now1 now2 ft store
          .ok ({ action := "overwritten", template := some saved.1 }, saved.2)
        | .rename =>
          let ft := { template with id := some gid
                                    name := template.name ++ " (导入-" ++ suffix ++ ")"
                                    createdAt := none }
          let saved := StorageAdapter.saveTemplate gid2 gid2 now1 now2 ft store
          .ok ({ action := "renamed", template := some saved.1 }, saved.2)
        | .skip => .ok ({ action := "skipped", template := none }, store)
      else
        let ft := { template with id := some gid, createdAt := none }
        let saved := StorageAdapter.saveTemplate gid2 gid2 now1 now2 ft store
        .ok ({ action := "created", template := some saved.1 }, saved.2)

/-- The `templateInfo` envelope field of a records pack. -/
structure TemplateInfo where
  id : Option String
  name : Option String
  deriving DecidableEq, Repr

/-- A parsed records pack. -/
structure RecordsPack where
  version : String
  type : String
  templateInfo : Option TemplateInfo
  records : Option (List Rec)
  deriving DecidableEq, Repr

/-- The counts reported by `importRecordsPack`. -/
structure ImportRecordsResult where
  imported : Nat
  skipped : Nat
  total : Nat
  deriving DecidableEq, Repr

/-- The per-record loop of `importRecordsPack` (src/js/export.js lines
266-284): skip a record whose id already exists (adapter `getRecordById`,
modelled as lookup by the record's id), otherwise save it under a fresh id
(`gidf idx` models the `generateId()` call of iteration `idx`) and the
resolved templateId.  `now` models the timestamp calls during the import. -/
def importRecordsLoop (target : Option String) (gidf : Nat → String) (now : Nat) :
    List Rec → Nat → Nat → Nat → List Rec → (Nat × Nat × List Rec)
  | [], _, imported, skipped, store => (imported, skipped, store)
  | r :: rest, idx, imported, skipped, store =>
    match store.find? (fun s => s.id = r.id) with
    | some _ => importRecordsLoop target gidf now rest (idx + 1) imported (skipped + 1) store
    | none =>
      let toSave := { r with templateId := target, id := some (gidf idx) }
      let saved := StorageAdapter.saveRecord (gidf idx) (gidf idx) now now toSave store
      importRecordsLoop target gidf now rest (idx + 1) (imported + 1) skipped saved.2

/-- `importRecordsPack(file)` (src/js/export.js lines 230-305), with the
adapter in browser mode: reject a non-`records` pack; resolve the target
template by the pack's template id, falling back to a name lookup over all
templates, and fail when neither resolves; when the pack carries no
template id the resolution is skipped entirely and `targetTemplateId`
stays absent; then run the per-record loop and report the counts. -/
def importRecordsPack (pack : RecordsPack) (gidf : Nat → String) (now : Nat)
    (tstore : List Template) (rstore : List Rec) :
    Except String (ImportRecordsResult × List Rec) :=
  match pack.records with
  | none => .error "导入数据包失败: 无效的数据包格式"
  | some recs =>
    if pack.type = "" ∨ pack.type ≠ "records" then
      .error "导入数据包失败: 无效的数据包格式"
    else
      let templateId := pack.templateInfo.bind (·.id)
      let resolved : Except String (Option String) :=
        match templateId with
        | some tid =>
          match Storage.getTemplateById tstore tid with
          | some _ => .ok (some tid)
          | none =>
            match (Storage.getAllTemplates tstore).find?
                (fun t => some t.name = pack.templateInfo.bind (·.name)) with
            | some tb => .ok tb.id
            | none => .error "导入数据包失败: 找不到对应的模板，请先导入模板"
        | none => .ok none
      match resolved with
      | .error e => .error e
      | .ok target =>
        let out := importRecordsLoop target gidf now recs 0 0 0 rstore
        .ok ({ imported := out.1, skipped := out.2.1, total := recs.length }, out.2.2)

/-- A parsed full backup. -/
structure Backup where
  version : String
  type : String
  templates : List Template
  records : List Rec
  deriving DecidableEq, Repr

/-- The template loop of `importFullBackup` (src/js/export.js lines
354-362): save a backup template only when no template with its id exists
(adapter `getTemplateById`, modelled as lookup by the template's id),
counting the writes. -/
def importBackupTemplatesLoop (gidf : Nat → String) (now : Nat) :
    List Template → Nat → Nat → List Template → (Nat × List Template)
  | [], _, count, store => (count, store)
  | t :: rest, idx, count, store =>
    match store.find? (fun s => s.id = t.id) with
    | some _ => importBackupTemplatesLoop gidf now rest (idx + 1) count store
    | none =>
      let saved := StorageAdapter.saveTemplate (gidf idx) (gidf idx) now now t store
      importBackupTemplatesLoop gidf now rest (idx + 1) (count + 1) saved.2

/-- The record loop of `importFullBackup` (src/js/export.js lines 365-373),
analogous. -/
def importBackupRecordsLoop (gidf : Nat → String) (now : Nat) :
    List Rec → Nat → Nat → List Rec → (Nat × List Rec)
  | [], _, count, store => (count, store)
  | r :: rest, idx, count, store =>
    match store.find? (fun s => s.id = r.id) with
    | some _ => importBackupRecordsLoop gidf now rest (idx + 1) count store
    | none =>
      let saved := StorageAdapter.saveRecord (gidf idx) (gidf idx) now now r store
      importBackupRecordsLoop gidf now rest (idx + 1) (count + 1) saved.2

/-- `importFullBackup(file)` (src/js/export.js lines 336-393), with the
adapter in browser mode: reject a non-`full_backup` pack, then run both
loops and report the counts actually written. -/
def importFullBackup (backup : Backup) (gidfT gidfR : Nat → String) (now : Nat)
    (tstore : List Template) (rstore : List Rec) :
    Except String (Nat × Nat × List Template × List Rec) :=
  if backup.type = "" ∨ backup.type ≠ "full_backup" then
    .error "导入备份失败: 无效的备份文件格式"
  else
    let tOut := importBackupTemplatesLoop gidfT now backup.templates 0 0 tstore
    let rOut := importBackupRecordsLoop gidfR now backup.records 0 0 rstore
    .ok (tOut.1, rOut.1, tOut.2, rOut.2)

end Export

/-! ### Specification helpers for the import theorems -/

namespace Export

/-- The record `importRecordsPack` persists for pack record `r` at loop
iteration `idx` (independent of the store): the record under the fresh id
`gidf idx` and the resolved `templateId`, with `createdAt` kept (or stamped)
and `updatedAt` refreshed. -/
def importSaved (target : Option String) (gidf : Nat → String) (now : Nat)
    (r : Rec) (idx : Nat) : Rec :=
  (StorageAdapter.saveRecord (gidf idx) (gidf idx) now now
    { r with templateId := target, id := some (gidf idx) } []).1

/-- The records `importRecordsPack` appends to the store: one `importSaved`
per pack record whose id is not already present in the initial store. -/
def newRecs (target : Option String) (gidf : Nat → String) (now : Nat)
    (rstore : List Rec) : List Rec → Nat → List Rec
  | [], _ => []
  | r :: rest, idx =>
    if (rstore.find? (fun s => s.id = r.id)).isSome then
      newRecs target gidf now rstore rest (idx + 1)
    else
      importSaved target gidf now r idx :: newRecs target gidf now rstore rest (idx + 1)

/-- The template `importTemplatePack` persists under the `overwrite`
strategy when the preferred existing id is `p`: the imported template under
that id, `createdAt` kept (or stamped) and `updatedAt` refreshed. -/
def overwriteSaved (T : Template) (p : String) (now1 now2 : Nat) : Template :=
  { T with id := some p, createdAt := some (T.createdAt.getD now1), updatedAt := some now2 }

/-- The template persisted under the `rename` strategy: fresh id, suffixed
name, `createdAt` cleared and therefore re-stamped on save. -/
def renameSaved (T : Template) (gid suffix : String) (now1 now2 : Nat) : Template :=
  { T with id := some gid, name := T.name ++ " (导入-" ++ suffix ++ ")",
           createdAt := some now1, updatedAt := some now2 }

/-- The template persisted when no conflict exists: fresh id, `createdAt`
cleared and re-stamped. -/
def createdSaved (T : Template) (gid : String) (now1 now2 : Nat) : Template :=
  { T with id := some gid, createdAt := some now1, updatedAt := some now2 }

end Export

/-! ## Concrete example inputs used by witnesses and counterexamples -/

namespace Ex

/-- A template configured with field keys `a` and `b` and a word payload. -/
def abTemplate : Template :=
  { id := none, name := "T", description := "", titleFieldKey := ""
    wordFile := some { name := "t.docx", data := "data:application-odt-base64,AAAA" }
    fields := [{ id := "1", key := "a", label := "A", type := "text", required := false, order := 0 },
               { id := "2", key := "b", label := "B", type := "text", required := false, order := 1 }]
    detailTables := [], createdAt := none, updatedAt := none }

/-- A template whose single field key `x` is also used as a detail-table
name; `validateTemplate` accepts this shape (it checks key uniqueness only
among fields and name uniqueness only among tables). -/
def collisionTemplate : Template :=
  { id := none, name := "T", description := "", titleFieldKey := ""
    wordFile := none
    fields := [{ id := "f1", key := "x", label := "X", type := "text", required := false, order := 0 }]
    detailTables := [{ id := "t1", name := "x",
                       columns := [{ id := "c1", key := "c", label := "C", type := "text" }] }]
    createdAt := none, updatedAt := none }

/-- The field `name` of the spec's data-preparation example. -/
def nameField : Field :=
  { id := "f1", key := "name", label := "N", type := "text", required := false, order := 0 }

/-- The two-column `items` table of the spec's data-preparation example. -/
def itemsTable : DTable :=
  { id := "t1", name := "items",
    columns := [{ id := "c1", key := "qty", label := "Q", type := "number" },
                { id := "c2", key := "price", label := "P", type := "number" }] }

/-- The template of the spec's data-preparation example: one field `name`,
one detail table `items` with columns `qty` and `price`. -/
def prepTemplate : Template :=
  { id := none, name := "T", description := "", titleFieldKey := "", wordFile := none
    fields := [nameField], detailTables := [itemsTable]
    createdAt := none, updatedAt := none }

/-- A template stored under id `t1`. -/
def t1Template : Template := ⟨some "t1", "A", "", "", none, [], [], some 1, some 1⟩

/-- A record of template `t1` stored under id `r1`. -/
def t1Record : Rec := ⟨some "r1", some "t1", none, [], [], some 1, some 1⟩

/-- A file-mode app state whose workspace holds template `t1` and one record
of it; the browser collections are empty. -/
def fileState : StorageAdapter.AppState :=
  { mode := .file, btemplates := [], brecords := []
    ws := some { templates := [("t1", t1Template)], records := [("t1", [("r1", t1Record)])] } }

/-- A browser-mode app state holding template `t1` and one record of it. -/
def browserState : StorageAdapter.AppState :=
  { mode := .browser, btemplates := [t1Template], brecords := [t1Record], ws := none }

/-- A store whose template `t1` is named `A` while `t2` is named `Invoice`:
an imported pack whose id matches `t1` but whose name matches `t2` crosses
the two conflict criteria. -/
def crossStore : List Template :=
  [⟨some "t1", "A", "", "", none, [], [], some 1, some 2⟩,
   ⟨some "t2", "Invoice", "", "", none, [], [], some 1, some 1⟩]

/-- A template pack whose template carries id `t1` and name `Invoice`. -/
def crossPack : Export.TemplatePack :=
  ⟨"1.0.0", "template", some ⟨some "t1", "Invoice", "", "", none, [], [], some 3, some 3⟩⟩

/-- A store holding one template named `Invoice` under id `t1`. -/
def invStore : List Template :=
  [⟨some "t1", "Invoice", "", "", none, [], [], some 1, some 1⟩]

/-- The payload of a pack named `Invoice` carrying the foreign id `t9`. -/
def invT : Template := ⟨some "t9", "Invoice", "", "", none, [], [], some 3, some 3⟩

/-- A template pack for `invT`. -/
def invPack : Export.TemplatePack := ⟨"1.0.0", "template", some invT⟩

/-- An injective fresh-id source for witnesses: `n` maps to the string of
`n + 1` copies of `g`. -/
def gidfW (n : Nat) : String := ⟨List.replicate (n + 1) 'g'⟩

end Ex

/-! # Part 2 — theorems -/

section AListTheorems

variable {α : Type}

theorem alistGet_set_self (o : List (String × α)) (k : String) (v : α) :
    alistGet (alistSet o k v) k = some v := by
  induction o with
  | nil => simp [alistGet, alistSet]
  | cons p t ih =>
    by_cases h : p.1 = k
    · simp [alistGet, alistSet, h]
    · simpa [alistGet, alistSet, h] using ih

theorem alistGet_set_ne (o : List (String × α)) {k k' : String} (v : α) (h : k' ≠ k) :
    alistGet (alistSet o k v) k' = alistGet o k' := by
  have h1 : ¬ (k = k') := fun hh => h hh.symm
  induction o with
  | nil => simp [alistGet, alistSet, h1]
  | cons p t ih =>
    by_cases hp : p.1 = k
    · have h2 : ¬ (p.1 = k') := by rw [hp]; exact h1
      simp [alistGet, alistSet, hp, h1, h2]
    · by_cases hp' : p.1 = k'
      · simp [alistGet, alistSet, hp, hp', h]
      · simpa [alistGet, alistSet, hp, hp'] using ih

end AListTheorems

namespace Word

theorem fieldPatch_idem (v : Option OutVal) :
    fieldPatch (some (fieldPatch v)) = fieldPatch v := by
  rcases v with _ | (jv | rs)
  · rfl
  · cases jv <;> rfl
  · rfl

theorem fieldStep_get_self (d : OutObj) (f : Field) :
    outGet (fieldStep d f) f.key = some (fieldPatch (outGet d f.key)) := by
  unfold fieldStep fieldPatch
  rcases h : outGet d f.key with _ | (jv | rs)
  · simp [h, alistGet_set_self]
  · cases jv <;> simp [h, alistGet_set_self]
  · simp [h]

theorem fieldStep_get_ne (d : OutObj) (f : Field) {k : String} (h : k ≠ f.key) :
    outGet (fieldStep d f) k = outGet d k := by
  unfold fieldStep
  rcases hv : outGet d f.key with _ | (jv | rs)
  · exact alistGet_set_ne d _ h
  · cases jv <;> first | exact alistGet_set_ne d _ h | rfl
  · rfl

theorem ffold_get (F : List Field) (d : OutObj) (k : String) :
    outGet (F.foldl fieldStep d) k =
      if ∃ f ∈ F, f.key = k then some (fieldPatch (outGet d k)) else outGet d k := by
  induction F generalizing d with
  | nil => simp
  | cons f F ih =>
    rw [List.foldl_cons, ih]
    by_cases hk : f.key = k
    · subst hk
      have hcond : ∃ g ∈ f :: F, g.key = f.key := ⟨f, List.mem_cons_self f F, rfl⟩
      by_cases hex : ∃ g ∈ F, g.key = f.key
      · rw [if_pos hex, if_pos hcond, fieldStep_get_self, fieldPatch_idem]
      · rw [if_neg hex, if_pos hcond, fieldStep_get_self]
    · have hne : k ≠ f.key := fun hh => hk hh.symm
      rw [fieldStep_get_ne d f hne]
      by_cases hex : ∃ g ∈ F, g.key = k
      · rw [if_pos hex, if_pos (by rcases hex with ⟨g, hg, rfl⟩; exact ⟨g, List.mem_cons_of_mem _ hg, rfl⟩)]
      · rw [if_neg hex, if_neg (by rintro ⟨g, hg, rfl⟩; rcases List.mem_cons.mp hg with rfl | hg'; exact hk rfl; exact hex ⟨g, hg', rfl⟩)]

theorem tfold_get_notmem (td : List (String × List Obj)) (L : List DTable) (d : OutObj)
    {k : String} (h : ∀ tc ∈ L, tc.name ≠ k) :
    outGet (L.foldl (tableStep td) d) k = outGet d k := by
  induction L generalizing d with
  | nil => rfl
  | cons t L ih =>
    rw [List.foldl_cons, ih _ (fun tc htc => h tc (List.mem_cons_of_mem _ htc))]
    exact alistGet_set_ne d _ (fun hh => h t (List.mem_cons_self t L) hh.symm)

theorem tfold_get_mem (td : List (String × List Obj)) (L : List DTable) (d : OutObj)
    (tc : DTable) (hnd : (L.map (·.name)).Nodup) (htc : tc ∈ L) :
    outGet (L.foldl (tableStep td) d) tc.name
      = some (.rows ((tableRows td tc.name).map (processRow tc))) := by
  induction L generalizing d with
  | nil => cases htc
  | cons t L ih =>
    rcases List.mem_cons.mp htc with rfl | hmem
    · rw [List.foldl_cons, tfold_get_notmem]
      · exact alistGet_set_self d _ _
      · intro u hu hequ
        have : tc.name ∈ L.map (·.name) := by
          rw [← hequ]; exact List.mem_map_of_mem _ hu
        exact (List.nodup_cons.mp hnd).1 this
    · rw [List.foldl_cons]
      exact ih _ (List.nodup_cons.mp hnd).2 hmem

theorem rowfold_get (row : Obj) (cols : List Column) (acc : Obj) (k : String) :
    objGet (cols.foldl (fun acc col => objSet acc col.key (processCell (objGet row col.key))) acc) k
      = if ∃ c ∈ cols, c.key = k then some (processCell (objGet row k)) else objGet acc k := by
  induction cols generalizing acc with
  | nil => simp
  | cons c cs ih =>
    rw [List.foldl_cons, ih]
    by_cases hk : c.key = k
    · subst hk
      have hcond : ∃ d ∈ c :: cs, d.key = c.key := ⟨c, List.mem_cons_self c cs, rfl⟩
      by_cases hex : ∃ d ∈ cs, d.key = c.key
      · rw [if_pos hex, if_pos hcond]
      · rw [if_neg hex, if_pos hcond]
        exact alistGet_set_self acc _ _
    · have hne : k ≠ c.key := fun hh => hk hh.symm
      have hset : objGet (objSet acc c.key (processCell (objGet row c.key))) k = objGet acc k :=
        alistGet_set_ne acc _ hne
      rw [hset]
      by_cases hex : ∃ d ∈ cs, d.key = k
      · rw [if_pos hex, if_pos (by rcases hex with ⟨d, hd, rfl⟩; exact ⟨d, List.mem_cons_of_mem _ hd, rfl⟩)]
      · rw [if_neg hex, if_neg (by rintro ⟨d, hd, rfl⟩; rcases List.mem_cons.mp hd with rfl | hd'; exact hk rfl; exact hex ⟨d, hd', rfl⟩)]

theorem processRow_get (tc : DTable) (row : Obj) (col : Column) (h : col ∈ tc.columns) :
    objGet (processRow tc row) col.key = some (processCell (objGet row col.key)) := by
  unfold processRow
  rw [rowfold_get, if_pos ⟨col, h, rfl⟩]

theorem outGet_map_scalar (o : Obj) (k : String) :
    outGet (o.map (fun p => (p.1, OutVal.scalar p.2))) k = (objGet o k).map .scalar := by
  induction o with
  | nil => rfl
  | cons p t ih =>
    by_cases h : p.1 = k
    · simp [alistGet, h]
    · simpa [alistGet, h] using ih

theorem fieldPatch_map_scalar (v : Option JValue) :
    fieldPatch (v.map .scalar) = fieldOut v := by
  rcases v with _ | jv
  · rfl
  · cases jv <;> rfl

end Word

namespace Template

theorem mem_foldl_setAdd (l acc : List String) (x : String) :
    x ∈ l.foldl setAdd acc ↔ x ∈ acc ∨ x ∈ l := by
  induction l generalizing acc with
  | nil => simp
  | cons a t ih =>
    rw [List.foldl_cons, ih]
    unfold setAdd
    by_cases h : a ∈ acc
    · rw [if_pos h]
      constructor
      · rintro (hx | hx)
        · exact Or.inl hx
        · exact Or.inr (List.mem_cons_of_mem _ hx)
      · rintro (hx | hx)
        · exact Or.inl hx
        · rcases List.mem_cons.mp hx with rfl | hx'
          · exact Or.inl h
          · exact Or.inr hx'
    · rw [if_neg h]
      simp [List.mem_append, List.mem_cons, or_assoc]

theorem mem_setOfList (l : List String) (x : String) : x ∈ setOfList l ↔ x ∈ l := by
  unfold setOfList
  simpa using mem_foldl_setAdd l [] x

theorem foldl_push_pair (l : List String) (p : String → Prop) [DecidablePred p]
    (a b : List String) :
    l.foldl (fun acc key => if p key then (acc.1 ++ [key], acc.2) else (acc.1, acc.2 ++ [key])) (a, b)
      = (a ++ l.filter (fun k => decide (p k)), b ++ l.filter (fun k => !decide (p k))) := by
  induction l generalizing a b with
  | nil => simp
  | cons x t ih =>
    rw [List.foldl_cons]
    by_cases h : p x
    · simp [h, ih, List.filter_cons]
    · simp [h, ih, List.filter_cons]

theorem foldl_push_single (l : List String) (p : String → Prop) [DecidablePred p]
    (a : List String) :
    l.foldl (fun acc x => if p x then acc else acc ++ [x]) a
      = a ++ l.filter (fun x => !decide (p x)) := by
  induction l generalizing a with
  | nil => simp
  | cons x t ih =>
    rw [List.foldl_cons]
    by_cases h : p x
    · simp [h, ih, List.filter_cons]
    · simp [h, ih, List.filter_cons]

theorem compareKeys_spec (t : Template) (ph : List String) :
    (compareKeys t ph).matched = (configKeys t).filter (fun k => decide (k ∈ ph))
    ∧ (compareKeys t ph).missingInWord = (configKeys t).filter (fun k => !decide (k ∈ ph))
    ∧ (compareKeys t ph).missingInConfig = ph.filter (fun p => !decide (p ∈ configKeys t))
    ∧ (compareKeys t ph).valid
        = ((compareKeys t ph).missingInWord.isEmpty && (compareKeys t ph).missingInConfig.isEmpty)
    ∧ (compareKeys t ph).error = none := by
  unfold compareKeys
  simp only [foldl_push_pair, foldl_push_single]
  simp

theorem mem_configKeys (t : Template) (k : String) :
    k ∈ configKeys t
      ↔ (k ∈ t.fields.map (·.key)
          ∨ k ∈ t.detailTables.flatMap (fun tb => tb.columns.map (·.key))) := by
  unfold configKeys
  rw [mem_setOfList, List.mem_append]

theorem checkTemplateConsistency_ok_eq (t : Template) (wf : WordFile) (text : String)
    (h1 : t.wordFile = some wf) (h2 : wf.data ≠ "") :
    checkTemplateConsistency t (.ok text)
      = compareKeys t (extractPlaceholdersFromWord (.ok text)) := by
  unfold checkTemplateConsistency
  rw [h1]
  simp [h2]

theorem checkTemplateConsistency_parseFail_eq (t : Template) (wf : WordFile)
    (h1 : t.wordFile = some wf) (h2 : wf.data ≠ "") :
    checkTemplateConsistency t .parseFail = compareKeys t [] := by
  unfold checkTemplateConsistency
  rw [h1]
  simp [h2]
  rfl

/-- **C1.** For every template whose word document payload parses successfully
(`DocOutcome.ok text`), `checkTemplateConsistency` returns `matched` = the
configured keys (all field keys plus all detail-table column keys) that are
also extracted placeholders, `missingInWord` = the configured keys absent from
the placeholder set, `missingInConfig` = the extracted placeholders absent
from the configured key set, `valid = true` iff both missing lists are empty,
and no `error` property. -/
theorem checkTemplateConsistency_partitions_keys (t : Template) (wf : WordFile) (text : String)
    (h1 : t.wordFile = some wf) (h2 : wf.data ≠ "") :
    ((checkTemplateConsistency t (.ok text)).matched
        = (configKeys t).filter (fun k => decide (k ∈ extractPlaceholdersFromWord (.ok text))))
    ∧ ((checkTemplateConsistency t (.ok text)).missingInWord
        = (configKeys t).filter (fun k => !decide (k ∈ extractPlaceholdersFromWord (.ok text))))
    ∧ ((checkTemplateConsistency t (.ok text)).missingInConfig
        = (extractPlaceholdersFromWord (.ok text)).filter (fun p => !decide (p ∈ configKeys t)))
    ∧ (∀ k, k ∈ (checkTemplateConsistency t (.ok text)).matched ↔
        ((k ∈ t.fields.map (·.key)
            ∨ k ∈ t.detailTables.flatMap (fun tb => tb.columns.map (·.key)))
          ∧ k ∈ extractPlaceholdersFromWord (.ok text)))
    ∧ (∀ k, k ∈ (checkTemplateConsistency t (.ok text)).missingInWord ↔
        ((k ∈ t.fields.map (·.key)
            ∨ k ∈ t.detailTables.flatMap (fun tb => tb.columns.map (·.key)))
          ∧ k ∉ extractPlaceholdersFromWord (.ok text)))
    ∧ (∀ k, k ∈ (checkTemplateConsistency t (.ok text)).missingInConfig ↔
        (k ∈ extractPlaceholdersFromWord (.ok text)
          ∧ ¬(k ∈ t.fields.map (·.key)
            ∨ k ∈ t.detailTables.flatMap (fun tb => tb.columns.map (·.key)))))
    ∧ ((checkTemplateConsistency t (.ok text)).valid = true ↔
        ((checkTemplateConsistency t (.ok text)).missingInWord = []
          ∧ (checkTemplateConsistency t (.ok text)).missingInConfig = []))
    ∧ (checkTemplateConsistency t (.ok text)).error = none := by
  rw [checkTemplateConsistency_ok_eq t wf text h1 h2]
  obtain ⟨hm, hw, hc, hv, herr⟩ := compareKeys_spec t (extractPlaceholdersFromWord (.ok text))
  refine ⟨hm, hw, hc, ?_, ?_, ?_, ?_, herr⟩
  · intro k
    rw [hm]
    simp [List.mem_filter, mem_configKeys]
  · intro k
    rw [hw]
    simp [List.mem_filter, mem_configKeys]
  · intro k
    rw [hc]
    simp [List.mem_filter, mem_configKeys]
  · rw [hv]
    simp [List.isEmpty_iff]

/-- Witness for `checkTemplateConsistency_partitions_keys`: the spec's own
example — configured keys are `a`, `b`; the document text carries placeholders
`b`, `c`; the result is `matched=[b]`, `missingInWord=[a]`,
`missingInConfig=[c]`, `valid=false`. -/
theorem checkTemplateConsistency_partitions_keys_witness :
    ((checkTemplateConsistency Ex.abTemplate (.ok "{b} {c}")).matched = ["b"]
      ∧ (checkTemplateConsistency Ex.abTemplate (.ok "{b} {c}")).missingInWord = ["a"]
      ∧ (checkTemplateConsistency Ex.abTemplate (.ok "{b} {c}")).missingInConfig = ["c"]
      ∧ (checkTemplateConsistency Ex.abTemplate (.ok "{b} {c}")).valid = false)
    ∧ (checkTemplateConsistency Ex.abTemplate (.ok "{b} {c}")).error = none := by
  refine ⟨by decide, ?_⟩
  exact (checkTemplateConsistency_partitions_keys Ex.abTemplate _ "{b} {c}" rfl
    (by decide)).2.2.2.2.2.2.2

/-- **C2 (amended).** A failure of the external document parse (corrupt
archive, unmatched loop markers) is swallowed inside
`extractPlaceholdersFromWord` (its `try/catch` returns the empty placeholder
set), so `checkTemplateConsistency` reports it as an ordinary key mismatch:
`matched = []`, every configured key in `missingInWord`, `missingInConfig =
[]`, no `error` property, and `valid` is even `true` when no keys are
configured.  Only a failure to decode the base64 payload (and a missing /
empty payload) yields an error-marked result distinguishable from a
mismatch. -/
theorem checkTemplateConsistency_parse_failure_swallowed (t : Template) (wf : WordFile)
    (h1 : t.wordFile = some wf) (h2 : wf.data ≠ "") :
    (checkTemplateConsistency t .parseFail).matched = []
    ∧ (checkTemplateConsistency t .parseFail).missingInWord = configKeys t
    ∧ (checkTemplateConsistency t .parseFail).missingInConfig = []
    ∧ (checkTemplateConsistency t .parseFail).error = none
    ∧ ((checkTemplateConsistency t .parseFail).valid = true ↔ configKeys t = [])
    ∧ (checkTemplateConsistency t .decodeFail).error
        = some "模板自检失败，请检查 Word 文件格式是否正确"
    ∧ (checkTemplateConsistency t .decodeFail).valid = false := by
  rw [checkTemplateConsistency_parseFail_eq t wf h1 h2]
  obtain ⟨hm, hw, hc, hv, herr⟩ := compareKeys_spec t []
  have hm' : (compareKeys t []).matched = [] := by simp [hm]
  have hw' : (compareKeys t []).missingInWord = configKeys t := by
    rw [hw]
    simp
  have hc' : (compareKeys t []).missingInConfig = [] := by simp [hc]
  refine ⟨hm', hw', hc', herr, ?_, ?_, ?_⟩
  · rw [hv, hw', hc']
    simp [List.isEmpty_iff]
  · unfold checkTemplateConsistency
    rw [h1]
    simp [h2]
  · unfold checkTemplateConsistency
    rw [h1]
    simp [h2]

/-- Witness for `checkTemplateConsistency_parse_failure_swallowed` at the
concrete two-field template. -/
theorem checkTemplateConsistency_parse_failure_swallowed_witness :
    (checkTemplateConsistency Ex.abTemplate .parseFail).missingInWord = configKeys Ex.abTemplate
    ∧ (checkTemplateConsistency Ex.abTemplate .parseFail).error = none
    ∧ (checkTemplateConsistency Ex.abTemplate .decodeFail).valid = false := by
  have h := checkTemplateConsistency_parse_failure_swallowed Ex.abTemplate
    { name := "t.docx", data := "data:application-odt-base64,AAAA" } rfl (by decide)
  exact ⟨h.2.1, h.2.2.2.1, h.2.2.2.2.2.2⟩

/-- **C2 (counterexample).** For the two-field template, a document parse
failure produces a result object identical to that of a successfully parsed
document containing no placeholders: `valid = false`, no `error` property —
the parse failure is reported exactly as a mere key mismatch, refuting the
claim that it is always distinguishable. -/
theorem checkTemplateConsistency_parseFail_counterexample :
    checkTemplateConsistency Ex.abTemplate .parseFail
        = checkTemplateConsistency Ex.abTemplate (.ok "plain text with no tags")
    ∧ (checkTemplateConsistency Ex.abTemplate .parseFail).error = none
    ∧ (checkTemplateConsistency Ex.abTemplate .parseFail).valid = false := by
  decide

end Template

namespace Word

/-- **C8 (amended).** `prepareDataForWord` is total by construction, and —
for every template whose detail-table names are pairwise distinct (as
`validateTemplate` requires) and do not collide with any field key — its
result contains every configured field key mapped to its supplied value, or
the empty string when the value is absent or `null`; and every configured
detail-table name mapped to an array with one row object per input row in
which every configured column key is present, with the empty string for a
cell whose value is absent or `null`. -/
theorem prepareDataForWord_fills_configured_keys
    (t : Template) (fieldData : Obj) (tableData : List (String × List Obj))
    (hnd : (t.detailTables.map (·.name)).Nodup)
    (hdisj : ∀ f ∈ t.fields, ∀ tc ∈ t.detailTables, f.key ≠ tc.name) :
    (∀ f ∈ t.fields,
       outGet (prepareDataForWord fieldData tableData t) f.key
         = some (fieldOut (objGet fieldData f.key)))
    ∧ (∀ tc ∈ t.detailTables,
       outGet (prepareDataForWord fieldData tableData t) tc.name
         = some (.rows ((tableRows tableData tc.name).map (processRow tc)))
       ∧ ((tableRows tableData tc.name).map (processRow tc)).length
           = (tableRows tableData tc.name).length
       ∧ ∀ row ∈ tableRows tableData tc.name, ∀ col ∈ tc.columns,
           objGet (processRow tc row) col.key = some (processCell (objGet row col.key))) := by
  constructor
  · intro f hf
    unfold prepareDataForWord
    rw [ffold_get, if_pos ⟨f, hf, rfl⟩,
        tfold_get_notmem tableData t.detailTables _ (fun tc htc => (hdisj f hf tc htc).symm),
        outGet_map_scalar, fieldPatch_map_scalar]
  · intro tc htc
    refine ⟨?_, by simp, ?_⟩
    · unfold prepareDataForWord
      have hnotf : ¬ ∃ f ∈ t.fields, f.key = tc.name := by
        rintro ⟨f, hf, hkey⟩
        exact hdisj f hf tc htc hkey
      rw [ffold_get, if_neg hnotf, tfold_get_mem tableData t.detailTables _ tc hnd htc]
    · intro row _ col hcol
      exact processRow_get tc row col hcol

/-- Witness for `prepareDataForWord_fills_configured_keys`: the spec's own
example — field `name` with empty data yields `name = ""`; a two-column
table whose row misses the `price` column yields `price = ""` in the output
row. -/
theorem prepareDataForWord_fills_configured_keys_witness :
    (outGet (prepareDataForWord [] [("items", [[("qty", .num 2)]])] Ex.prepTemplate)
        "name" = some (.scalar (.str "")))
    ∧ (outGet (prepareDataForWord [] [("items", [[("qty", .num 2)]])] Ex.prepTemplate)
        "items" = some (.rows [[("qty", .num 2), ("price", .str "")]])) := by
  have h := prepareDataForWord_fills_configured_keys
    Ex.prepTemplate [] [("items", [[("qty", .num 2)]])] (by decide) (by decide)
  refine ⟨?_, ?_⟩
  · exact h.1 Ex.nameField (by decide)
  · have h2 := (h.2 Ex.itemsTable (by decide)).1
    exact h2.trans (by decide)

/-- **C8 (counterexample).** A template whose field key `x` is also the name
of a (configured, `validateTemplate`-accepted) detail table refutes the claim
as stated for every template: the prepared object maps the configured field
key `x` to the table's row array — neither its supplied field value `"v"`
nor the empty string. -/
theorem prepareDataForWord_collision_counterexample :
    outGet (prepareDataForWord [("x", .str "v")] [] Ex.collisionTemplate) "x"
        = some (.rows [])
    ∧ (∀ jv : JValue, (OutVal.rows []) ≠ .scalar jv) := by
  refine ⟨by decide, ?_⟩
  intro jv h
  cases h

end Word

namespace Storage

/-- **C10.** In the transactional (IndexedDB) backend every list-returning
read is deterministically ordered: `getAllTemplates` returns a permutation
of the stored templates sorted by `updatedAt` descending, and
`getAllRecords` / `getRecordsByTemplateId` return the stored records (resp.
the stored records of the template) sorted by `createdAt` descending, most
recent first. -/
theorem listReads_sorted_desc (tstore : List Template) (rstore : List Rec) (tid : String) :
    (getAllTemplates tstore).Perm tstore
    ∧ List.Sorted updatedDesc (getAllTemplates tstore)
    ∧ (getAllRecords rstore).Perm rstore
    ∧ List.Sorted createdDesc (getAllRecords rstore)
    ∧ (getRecordsByTemplateId rstore tid).Perm
        (rstore.filter (fun r => r.templateId = some tid))
    ∧ List.Sorted createdDesc (getRecordsByTemplateId rstore tid)
    ∧ (∀ r ∈ getRecordsByTemplateId rstore tid, r.templateId = some tid) := by
  refine ⟨List.perm_insertionSort _ _, List.sorted_insertionSort _ _,
          List.perm_insertionSort _ _, List.sorted_insertionSort _ _,
          List.perm_insertionSort _ _, List.sorted_insertionSort _ _, ?_⟩
  intro r hr
  have hmem := (List.perm_insertionSort createdDesc
    (rstore.filter (fun r => r.templateId = some tid))).mem_iff.mp hr
  have := List.of_mem_filter hmem
  simpa using this

theorem getRecordById_put (store : List Rec) (rd : Rec) (i : String) (hid : rd.id = some i) :
    getRecordById (putRecord store rd) i = some rd := by
  unfold getRecordById putRecord
  by_cases h : store.any (fun u => u.id = rd.id)
  · rw [if_pos h]
    induction store with
    | nil => simp at h
    | cons u t ih =>
      by_cases hu : u.id = rd.id
      · simp [hu, hid]
      · have hne : ¬ (u.id = some i) := fun hh => hu (hh.trans hid.symm)
        have ht : t.any (fun u => u.id = rd.id) := by
          rcases List.any_eq_true.mp h with ⟨x, hx, hpx⟩
          rcases List.mem_cons.mp hx with rfl | hx'
          · exact absurd (of_decide_eq_true hpx) hu
          · exact List.any_eq_true.mpr ⟨x, hx', hpx⟩
        simpa [hu, hne] using ih ht
  · rw [if_neg h]
    induction store with
    | nil => simp [hid]
    | cons u t ih =>
      have hu : ¬ (u.id = rd.id) := by
        intro hh
        exact h (List.any_eq_true.mpr ⟨u, List.mem_cons_self u t, decide_eq_true hh⟩)
      have hne : ¬ (u.id = some i) := fun hh => hu (hh.trans hid.symm)
      have ht : ¬ t.any (fun v => v.id = rd.id) := by
        intro hh
        rcases List.any_eq_true.mp hh with ⟨x, hx, hpx⟩
        exact h (List.any_eq_true.mpr ⟨x, List.mem_cons_of_mem _ hx, hpx⟩)
      simpa [hne] using ih ht

theorem getTemplateById_put (store : List Template) (td : Template) (i : String)
    (hid : td.id = some i) :
    getTemplateById (putTemplate store td) i = some td := by
  unfold getTemplateById putTemplate
  by_cases h : store.any (fun u => u.id = td.id)
  · rw [if_pos h]
    induction store with
    | nil => simp at h
    | cons u t ih =>
      by_cases hu : u.id = td.id
      · simp [hu, hid]
      · have hne : ¬ (u.id = some i) := fun hh => hu (hh.trans hid.symm)
        have ht : t.any (fun u => u.id = td.id) := by
          rcases List.any_eq_true.mp h with ⟨x, hx, hpx⟩
          rcases List.mem_cons.mp hx with rfl | hx'
          · exact absurd (of_decide_eq_true hpx) hu
          · exact List.any_eq_true.mpr ⟨x, hx', hpx⟩
        simpa [hu, hne] using ih ht
  · rw [if_neg h]
    induction store with
    | nil => simp [hid]
    | cons u t ih =>
      have hu : ¬ (u.id = td.id) := by
        intro hh
        exact h (List.any_eq_true.mpr ⟨u, List.mem_cons_self u t, decide_eq_true hh⟩)
      have hne : ¬ (u.id = some i) := fun hh => hu (hh.trans hid.symm)
      have ht : ¬ t.any (fun v => v.id = td.id) := by
        intro hh
        rcases List.any_eq_true.mp hh with ⟨x, hx, hpx⟩
        exact h (List.any_eq_true.mpr ⟨x, List.mem_cons_of_mem _ hx, hpx⟩)
      simpa [hne] using ih ht

end Storage

namespace StorageAdapter

/-- **C3.** Saving a record through the storage adapter (browser backend)
assigns a fresh id when the record carries none, keeps a carried id, assigns
the current timestamp as `createdAt` when the record carries none, keeps a
carried `createdAt`, and always refreshes `updatedAt` (to the backend's
timestamp `now2`); the stored record equals the input except for exactly
these adjustments, and immediately after the save `getRecordById` on the
saved id returns it. -/
theorem saveRecord_roundtrip (gid gid2 : String) (now1 now2 : Nat) (r : Rec)
    (store : List Rec) :
    ((r.id = none → (saveRecord gid gid2 now1 now2 r store).1.id = some gid)
      ∧ (∀ i, r.id = some i → (saveRecord gid gid2 now1 now2 r store).1.id = some i))
    ∧ ((r.createdAt = none →
          (saveRecord gid gid2 now1 now2 r store).1.createdAt = some now1)
      ∧ (∀ c, r.createdAt = some c →
          (saveRecord gid gid2 now1 now2 r store).1.createdAt = some c))
    ∧ (saveRecord gid gid2 now1 now2 r store).1.updatedAt = some now2
    ∧ (saveRecord gid gid2 now1 now2 r store).1
        = { r with id := some (r.id.getD gid)
                   createdAt := some (r.createdAt.getD now1)
                   updatedAt := some now2 }
    ∧ (∀ i, (saveRecord gid gid2 now1 now2 r store).1.id = some i →
        Storage.getRecordById (saveRecord gid gid2 now1 now2 r store).2 i
          = some (saveRecord gid gid2 now1 now2 r store).1) := by
  have hfst : (saveRecord gid gid2 now1 now2 r store).1
      = { r with id := some (r.id.getD gid)
                 createdAt := some (r.createdAt.getD now1)
                 updatedAt := some now2 } := by
    unfold saveRecord Storage.saveRecord
    simp
  have hsnd : (saveRecord gid gid2 now1 now2 r store).2
      = Storage.putRecord store (saveRecord gid gid2 now1 now2 r store).1 := by
    unfold saveRecord Storage.saveRecord
    simp
  refine ⟨⟨?_, ?_⟩, ⟨?_, ?_⟩, ?_, hfst, ?_⟩
  · intro h; rw [hfst]; simp [h]
  · intro i h; rw [hfst]; simp [h]
  · intro h; rw [hfst]; simp [h]
  · intro c h; rw [hfst]; simp [h]
  · rw [hfst]
  · intro i hi
    rw [hsnd]
    exact Storage.getRecordById_put store _ i hi

/-- Witness for `saveRecord_roundtrip`: a fresh record (no id, no
timestamps) saved into an empty store gets the generated id and the
timestamps, and is returned by `getRecordById`. -/
theorem saveRecord_roundtrip_witness :
    ((⟨none, some "t1", none, [("a", .str "1")], [], none, none⟩ : Rec).id = none
      ∧ (saveRecord "r9" "u" 5 7 ⟨none, some "t1", none, [("a", .str "1")], [], none, none⟩ []).1.id
          = some "r9")
    ∧ Storage.getRecordById
        (saveRecord "r9" "u" 5 7 ⟨none, some "t1", none, [("a", .str "1")], [], none, none⟩ []).2 "r9"
        = some ⟨some "r9", some "t1", none, [("a", .str "1")], [], some 5, some 7⟩ := by
  have h := saveRecord_roundtrip "r9" "u" 5 7
    ⟨none, some "t1", none, [("a", .str "1")], [], none, none⟩ []
  refine ⟨⟨rfl, h.1.1 rfl⟩, ?_⟩
  have h5 := h.2.2.2.2 "r9" (h.1.1 rfl)
  rw [h5, h.2.2.2.1]
  rfl

end StorageAdapter

section AListFilter

variable {α : Type}

theorem alistGet_filter_self (l : List (String × α)) (k : String) :
    alistGet (l.filter (fun p => ¬ p.1 = k)) k = none := by
  induction l with
  | nil => rfl
  | cons p t ih =>
    by_cases h : p.1 = k
    · rw [List.filter_cons, if_neg (by simp [h])]
      exact ih
    · rw [List.filter_cons, if_pos (by simp [h])]
      have hd : decide (p.1 = k) = false := by simp [h]
      rw [alistGet, List.find?_cons, hd]
      exact ih

end AListFilter

namespace Storage

theorem mem_foldDeletes (L : List Rec) (s : List Rec) (r : Rec)
    (hr : r ∈ L.foldl
      (fun s r => match r.id with
                  | some i => deleteRecord s i
                  | none => s) s) :
    r ∈ s ∧ ∀ l ∈ L, ∀ i, l.id = some i → ¬ r.id = some i := by
  induction L generalizing s with
  | nil => exact ⟨by simp only [List.foldl_nil] at hr; exact hr, by simp⟩
  | cons l L ih =>
    rw [List.foldl_cons] at hr
    obtain ⟨h1, h2⟩ := ih _ hr
    constructor
    · cases hl : l.id with
      | none => rw [hl] at h1; exact h1
      | some i =>
        rw [hl] at h1
        exact List.mem_of_mem_filter h1
    · intro l' hl' i hi
      rcases List.mem_cons.mp hl' with rfl | hmem
      · rw [hi] at h1
        have := List.of_mem_filter h1
        simpa using this
      · exact h2 l' hmem i hi

/-- After `deleteRecordsByTemplateId`, the browser backend holds no record
of the template.  Stored records carry ids (the store's key path). -/
theorem deleteRecordsByTemplateId_clears (store : List Rec) (tid : String)
    (hids : ∀ r ∈ store, r.id.isSome) :
    getRecordsByTemplateId (deleteRecordsByTemplateId store tid) tid = [] := by
  unfold Storage.getRecordsByTemplateId
  suffices h : (deleteRecordsByTemplateId store tid).filter
      (fun r => r.templateId = some tid) = [] by
    rw [h]; rfl
  rw [List.filter_eq_nil_iff]
  intro r hr hp
  have hp' : r.templateId = some tid := of_decide_eq_true hp
  obtain ⟨hmem, hnot⟩ := mem_foldDeletes _ _ _ hr
  have hrfilter : r ∈ store.filter (fun x => x.templateId = some tid) :=
    List.mem_filter.mpr ⟨hmem, decide_eq_true hp'⟩
  have hrL : r ∈ getRecordsByTemplateId store tid := by
    unfold Storage.getRecordsByTemplateId
    exact (List.perm_insertionSort createdDesc _).mem_iff.mpr hrfilter
  obtain ⟨i, hi⟩ := Option.isSome_iff_exists.mp (hids r hmem)
  exact hnot r hrL i hi hi

end Storage

namespace App

theorem order_append_last (ops : List StorageAdapter.DeleteOp)
    (last : StorageAdapter.DeleteOp) (tid : String)
    (hops : ∀ o ∈ ops, isTemplateDeleteOp tid o = false)
    (hlast : isRecDeleteOp tid last = false) :
    recordDeletesPrecedeTemplateDelete (ops ++ [last]) tid := by
  intro i j hti hrj
  have hi : ¬ ((i : Nat) < ops.length) := by
    intro hlt
    have hgi : (ops ++ [last]).get i = ops.get ⟨(i : Nat), hlt⟩ := by
      rw [List.get_eq_getElem, List.get_eq_getElem, List.getElem_append_left hlt]
    rw [hgi] at hti
    have := hops (ops.get ⟨(i : Nat), hlt⟩) (List.get_mem ops _ hlt)
    rw [this] at hti
    cases hti
  have hj : (j : Nat) < ops.length := by
    have hjlen : (j : Nat) < ops.length + 1 := by
      have := j.isLt
      simpa using this
    rcases Nat.lt_or_ge (j : Nat) ops.length with h | h
    · exact h
    · exfalso
      have hgj : (ops ++ [last]).get j = last := by
        rw [List.get_eq_getElem, List.getElem_append_right h]
        have : (j : Nat) - ops.length = 0 := by omega
        simp [this]
      rw [hgj, hlast] at hrj
      cases hrj
  have : (i : Nat) = ops.length := by
    have := i.isLt
    simp at this
    omega
  show (j : Nat) < (i : Nat)
  omega

/-- **C6 (amended).** For the logical delete-template action (the UI confirm
handler): after a successful run, the adapter's `getRecordsByTemplateId`
returns the empty list, and so does the browser backend directly.  In
browser mode every record deletion is issued and awaited before the template
deletion; in file mode the trace is the browser-store record deletions, then
the TEMPLATE file deletion, then the record-folder deletion — the template
is deleted before its record files. -/
theorem deleteTemplate_cascade (st : StorageAdapter.AppState) (tid : String)
    (st' : StorageAdapter.AppState)
    (hids : ∀ r ∈ st.brecords, r.id.isSome)
    (hrun : confirmDeleteTemplateRun st tid = .ok st') :
    StorageAdapter.getRecordsByTemplateId st' tid = []
    ∧ Storage.getRecordsByTemplateId st'.brecords tid = []
    ∧ (st.mode = .browser →
        recordDeletesPrecedeTemplateDelete (confirmDeleteTemplateTrace st tid) tid)
    ∧ (st.mode = .file →
        confirmDeleteTemplateTrace st tid
          = ((Storage.getRecordsByTemplateId st.brecords tid).map
              (fun r => StorageAdapter.DeleteOp.browserRecordDelete (r.id.getD "")))
            ++ [.fileTemplateDelete tid, .fileRecordsFolderDelete tid]) := by
  unfold confirmDeleteTemplateRun StorageAdapter.deleteTemplate at hrun
  cases hmode : st.mode with
  | file =>
    rw [hmode] at hrun
    simp only at hrun
    cases hws : st.ws with
    | none =>
      rw [hws] at hrun
      simp [FileStorage.deleteTemplateFile, FileStorage.getWorkspace] at hrun
    | some w =>
      rw [hws] at hrun
      cases hdel : alistGet w.templates tid with
      | none =>
        rw [FileStorage.deleteTemplateFile, FileStorage.getWorkspace] at hrun
        simp only [hdel] at hrun
        cases hrun
      | some tfound =>
        rw [FileStorage.deleteTemplateFile, FileStorage.getWorkspace] at hrun
        simp only [hdel] at hrun
        rw [FileStorage.deleteRecordsByTemplateId, FileStorage.getWorkspace] at hrun
        simp only [Except.ok.injEq] at hrun
        subst hrun
        refine ⟨?_, ?_, ?_, ?_⟩
        · simp only [StorageAdapter.getRecordsByTemplateId, FileStorage.loadRecordsFromFiles,
            FileStorage.getWorkspace]
          rw [alistGet_filter_self]
          rfl
        · exact Storage.deleteRecordsByTemplateId_clears st.brecords tid hids
        · intro hb
          simp at hb
        · intro _
          unfold confirmDeleteTemplateTrace StorageAdapter.deleteTemplateOps
          rw [hmode]
  | browser =>
    rw [hmode] at hrun
    simp only [Except.ok.injEq] at hrun
    subst hrun
    refine ⟨?_, ?_, ?_, ?_⟩
    · simp only [StorageAdapter.getRecordsByTemplateId]
      exact Storage.deleteRecordsByTemplateId_clears st.brecords tid hids
    · exact Storage.deleteRecordsByTemplateId_clears st.brecords tid hids
    · intro _
      unfold confirmDeleteTemplateTrace StorageAdapter.deleteTemplateOps
      rw [hmode]
      apply order_append_last
      · intro o ho
        rcases List.mem_map.mp ho with ⟨r, _, rfl⟩
        rfl
      · rfl
    · intro hf
      simp at hf

/-- Witness for `deleteTemplate_cascade`: the browser-mode state holding
template `t1` and one record; the run succeeds, the record lists come back
empty and the record deletion precedes the template deletion. -/
theorem deleteTemplate_cascade_witness :
    StorageAdapter.getRecordsByTemplateId
        { mode := .browser, btemplates := [], brecords := [], ws := none } "t1" = []
    ∧ recordDeletesPrecedeTemplateDelete
        (confirmDeleteTemplateTrace Ex.browserState "t1") "t1" := by
  have h := deleteTemplate_cascade Ex.browserState "t1"
    { mode := .browser, btemplates := [], brecords := [], ws := none }
    (by decide) rfl
  exact ⟨h.1, h.2.2.1 rfl⟩

/-- **C6 (counterexample).** In file mode (workspace holding template `t1`
and one of its record files), the delete-template action issues the template
file deletion BEFORE the deletion of the template's record folder, refuting
the claimed ordering; the state genuinely holds a record of `t1` when the
template is deleted. -/
theorem deleteTemplate_order_counterexample :
    ¬ recordDeletesPrecedeTemplateDelete (confirmDeleteTemplateTrace Ex.fileState "t1") "t1"
    ∧ StorageAdapter.getRecordsByTemplateId Ex.fileState "t1" ≠ []
    ∧ confirmDeleteTemplateTrace Ex.fileState "t1"
        = [.fileTemplateDelete "t1", .fileRecordsFolderDelete "t1"] := by
  refine ⟨?_, by decide, by decide⟩
  intro hcontra
  have h01 := hcontra ⟨0, by decide⟩ ⟨1, by decide⟩ (by decide) (by decide)
  cases h01

end App

namespace FileStorage

/-- **C9 (amended).** With no workspace configured (authorization not yet
granted): the save operations fail with their operation-specific message
wrapping the no-workspace error; the delete operations fail with their
operation-specific message (the cause is dropped); the single-template load
fails with the template-not-found message; and the load-all operations
swallow the error and return an empty list.  The unsupported-environment
error arises only in `selectWorkspace` when the browser lacks the File
System Access API. -/
theorem unauthorized_failure_semantics (t : Template) (r : Rec) (tid : String)
    (w : Workspace) :
    getWorkspace none = .error "未设置工作区，请先选择工作区文件夹"
    ∧ saveTemplateToFile none t
        = .error ("保存模板失败: " ++ "未设置工作区，请先选择工作区文件夹")
    ∧ saveRecordToFile none r
        = .error ("保存记录失败: " ++ "未设置工作区，请先选择工作区文件夹")
    ∧ deleteTemplateFile none tid = .error "删除模板失败"
    ∧ deleteRecordFile none r = .error "删除记录失败"
    ∧ deleteRecordsByTemplateId none tid = .error "删除记录失败"
    ∧ loadTemplateFromFile none tid = .error "模板不存在"
    ∧ loadTemplatesFromFiles none = []
    ∧ loadRecordsFromFiles none (some tid) = []
    ∧ loadRecordsFromFiles none none = []
    ∧ selectWorkspace false w
        = .error "您的浏览器不支持本地文件系统访问，请使用 Chrome 86+ 或 Edge 86+" :=
  ⟨rfl, rfl, rfl, rfl, rfl, rfl, rfl, rfl, rfl, rfl, rfl⟩

/-- **C9 (counterexample).** Invoked before any workspace authorization, the
load-all operations do NOT fail: they return an empty list, and the
single-template load reports `模板不存在` (template does not exist) rather
than a no-workspace error — refuting the claim that every File Store
operation fails with the no-workspace error. -/
theorem unauthorized_load_counterexample :
    loadTemplatesFromFiles none = []
    ∧ loadRecordsFromFiles none (some "t1") = []
    ∧ loadRecordsFromFiles none none = []
    ∧ loadTemplateFromFile none "t1" = .error "模板不存在"
    ∧ "模板不存在" ≠ "未设置工作区，请先选择工作区文件夹" :=
  ⟨rfl, rfl, rfl, rfl, by decide⟩

end FileStorage

namespace Storage

theorem find?_id_putTemplate_mono (store : List Template) (td : Template) (X : Option String)
    (h : (store.find? (fun s => s.id = X)).isSome) :
    ((putTemplate store td).find? (fun s => s.id = X)).isSome := by
  rcases List.find?_isSome.mp h with ⟨x, hx, hpx⟩
  have hxid : x.id = X := of_decide_eq_true hpx
  unfold putTemplate
  by_cases hany : store.any (fun u => u.id = td.id)
  · rw [if_pos hany]
    apply List.find?_isSome.mpr
    by_cases hxd : x.id = td.id
    · exact ⟨td, List.mem_map.mpr ⟨x, hx, by simp [hxd]⟩, by simp [← hxd, hxid]⟩
    · exact ⟨x, List.mem_map.mpr ⟨x, hx, by simp [hxd]⟩, by simp [hxid]⟩
  · rw [if_neg hany]
    apply List.find?_isSome.mpr
    exact ⟨x, List.mem_append_left _ hx, by simp [hxid]⟩

theorem find?_id_putRecord_mono (store : List Rec) (rd : Rec) (X : Option String)
    (h : (store.find? (fun s => s.id = X)).isSome) :
    ((putRecord store rd).find? (fun s => s.id = X)).isSome := by
  rcases List.find?_isSome.mp h with ⟨x, hx, hpx⟩
  have hxid : x.id = X := of_decide_eq_true hpx
  unfold putRecord
  by_cases hany : store.any (fun u => u.id = rd.id)
  · rw [if_pos hany]
    apply List.find?_isSome.mpr
    by_cases hxd : x.id = rd.id
    · exact ⟨rd, List.mem_map.mpr ⟨x, hx, by simp [hxd]⟩, by simp [← hxd, hxid]⟩
    · exact ⟨x, List.mem_map.mpr ⟨x, hx, by simp [hxd]⟩, by simp [hxid]⟩
  · rw [if_neg hany]
    apply List.find?_isSome.mpr
    exact ⟨x, List.mem_append_left _ hx, by simp [hxid]⟩

theorem find?_id_putTemplate_self (store : List Template) (td : Template) :
    ((putTemplate store td).find? (fun s => s.id = td.id)).isSome := by
  unfold putTemplate
  by_cases hany : store.any (fun u => u.id = td.id)
  · rw [if_pos hany]
    rcases List.any_eq_true.mp hany with ⟨x, hx, hpx⟩
    apply List.find?_isSome.mpr
    exact ⟨td, List.mem_map.mpr ⟨x, hx, by simp [of_decide_eq_true hpx]⟩, by simp⟩
  · rw [if_neg hany]
    apply List.find?_isSome.mpr
    exact ⟨td, List.mem_append_right _ (List.mem_singleton.mpr rfl), by simp⟩

theorem find?_id_putRecord_self (store : List Rec) (rd : Rec) :
    ((putRecord store rd).find? (fun s => s.id = rd.id)).isSome := by
  unfold putRecord
  by_cases hany : store.any (fun u => u.id = rd.id)
  · rw [if_pos hany]
    rcases List.any_eq_true.mp hany with ⟨x, hx, hpx⟩
    apply List.find?_isSome.mpr
    exact ⟨rd, List.mem_map.mpr ⟨x, hx, by simp [of_decide_eq_true hpx]⟩, by simp⟩
  · rw [if_neg hany]
    apply List.find?_isSome.mpr
    exact ⟨rd, List.mem_append_right _ (List.mem_singleton.mpr rfl), by simp⟩

theorem putTemplate_length_of_fresh (store : List Template) (td : Template)
    (h : (store.find? (fun s => s.id = td.id)) = none) :
    (putTemplate store td).length = store.length + 1 := by
  unfold putTemplate
  have hany : ¬ store.any (fun u => u.id = td.id) := by
    intro hc
    rcases List.any_eq_true.mp hc with ⟨x, hx, hpx⟩
    have := List.find?_eq_none.mp h x hx
    exact this hpx
  rw [if_neg hany]
  simp

theorem putRecord_length_of_fresh (store : List Rec) (rd : Rec)
    (h : (store.find? (fun s => s.id = rd.id)) = none) :
    (putRecord store rd).length = store.length + 1 := by
  unfold putRecord
  have hany : ¬ store.any (fun u => u.id = rd.id) := by
    intro hc
    rcases List.any_eq_true.mp hc with ⟨x, hx, hpx⟩
    have := List.find?_eq_none.mp h x hx
    exact this hpx
  rw [if_neg hany]
  simp

end Storage

namespace StorageAdapter

theorem saveTemplate_eq (gid gid2 : String) (now1 now2 : Nat) (t : Template)
    (store : List Template) :
    saveTemplate gid gid2 now1 now2 t store
      = ({ t with id := some (t.id.getD gid)
                  createdAt := some (t.createdAt.getD now1)
                  updatedAt := some now2 },
         Storage.putTemplate store
           { t with id := some (t.id.getD gid)
                    createdAt := some (t.createdAt.getD now1)
                    updatedAt := some now2 }) := by
  unfold saveTemplate Storage.saveTemplate
  simp

theorem saveRecord_eq (gid gid2 : String) (now1 now2 : Nat) (r : Rec)
    (store : List Rec) :
    saveRecord gid gid2 now1 now2 r store
      = ({ r with id := some (r.id.getD gid)
                  createdAt := some (r.createdAt.getD now1)
                  updatedAt := some now2 },
         Storage.putRecord store
           { r with id := some (r.id.getD gid)
                    createdAt := some (r.createdAt.getD now1)
                    updatedAt := some now2 }) := by
  unfold saveRecord Storage.saveRecord
  simp

end StorageAdapter

namespace Export

theorem tLoop_mono (gidf : Nat → String) (now : Nat) (ts : List Template)
    (idx c : Nat) (store : List Template) (X : Option String)
    (h : (store.find? (fun s => s.id = X)).isSome) :
    (((importBackupTemplatesLoop gidf now ts idx c store).2).find?
        (fun s => s.id = X)).isSome := by
  induction ts generalizing idx c store with
  | nil => simpa [importBackupTemplatesLoop] using h
  | cons t rest ih =>
    unfold importBackupTemplatesLoop
    cases hf : store.find? (fun s => s.id = t.id) with
    | some u =>
      simp only [hf]
      exact ih _ _ _ h
    | none =>
      simp only [hf, StorageAdapter.saveTemplate_eq]
      exact ih _ _ _ (Storage.find?_id_putTemplate_mono _ _ _ h)

theorem rLoop_mono (gidf : Nat → String) (now : Nat) (rs : List Rec)
    (idx c : Nat) (store : List Rec) (X : Option String)
    (h : (store.find? (fun s => s.id = X)).isSome) :
    (((importBackupRecordsLoop gidf now rs idx c store).2).find?
        (fun s => s.id = X)).isSome := by
  induction rs generalizing idx c store with
  | nil => simpa [importBackupRecordsLoop] using h
  | cons r rest ih =>
    unfold importBackupRecordsLoop
    cases hf : store.find? (fun s => s.id = r.id) with
    | some u =>
      simp only [hf]
      exact ih _ _ _ h
    | none =>
      simp only [hf, StorageAdapter.saveRecord_eq]
      exact ih _ _ _ (Storage.find?_id_putRecord_mono _ _ _ h)

theorem tLoop_covers (gidf : Nat → String) (now : Nat) (ts : List Template)
    (idx c : Nat) (store : List Template)
    (hids : ∀ t ∈ ts, t.id.isSome) :
    ∀ t ∈ ts, (((importBackupTemplatesLoop gidf now ts idx c store).2).find?
        (fun s => s.id = t.id)).isSome := by
  induction ts generalizing idx c store with
  | nil => intro t ht; cases ht
  | cons t0 rest ih =>
    intro t ht
    unfold importBackupTemplatesLoop
    rcases List.mem_cons.mp ht with rfl | hmem
    · cases hf : store.find? (fun s => s.id = t.id) with
      | some u =>
        simp only [hf]
        exact tLoop_mono gidf now rest _ _ _ _ (by rw [hf]; rfl)
      | none =>
        simp only [hf, StorageAdapter.saveTemplate_eq]
        apply tLoop_mono
        obtain ⟨i, hi⟩ := Option.isSome_iff_exists.mp (hids t (List.mem_cons_self t rest))
        simp only [hi, Option.getD_some]
        exact Storage.find?_id_putTemplate_self store
          { t with id := some i, createdAt := some (t.createdAt.getD now), updatedAt := some now }
    · cases hf : store.find? (fun s => s.id = t0.id) with
      | some u =>
        simp only [hf]
        exact ih _ _ _ (fun x hx => hids x (List.mem_cons_of_mem _ hx)) t hmem
      | none =>
        simp only [hf, StorageAdapter.saveTemplate_eq]
        exact ih _ _ _ (fun x hx => hids x (List.mem_cons_of_mem _ hx)) t hmem

theorem rLoop_covers (gidf : Nat → String) (now : Nat) (rs : List Rec)
    (idx c : Nat) (store : List Rec)
    (hids : ∀ r ∈ rs, r.id.isSome) :
    ∀ r ∈ rs, (((importBackupRecordsLoop gidf now rs idx c store).2).find?
        (fun s => s.id = r.id)).isSome := by
  induction rs generalizing idx c store with
  | nil => intro r hr; cases hr
  | cons r0 rest ih =>
    intro r hr
    unfold importBackupRecordsLoop
    rcases List.mem_cons.mp hr with rfl | hmem
    · cases hf : store.find? (fun s => s.id = r.id) with
      | some u =>
        simp only [hf]
        exact rLoop_mono gidf now rest _ _ _ _ (by rw [hf]; rfl)
      | none =>
        simp only [hf, StorageAdapter.saveRecord_eq]
        apply rLoop_mono
        obtain ⟨i, hi⟩ := Option.isSome_iff_exists.mp (hids r (List.mem_cons_self r rest))
        simp only [hi, Option.getD_some]
        exact Storage.find?_id_putRecord_self store
          { r with id := some i, createdAt := some (r.createdAt.getD now), updatedAt := some now }
    · cases hf : store.find? (fun s => s.id = r0.id) with
      | some u =>
        simp only [hf]
        exact ih _ _ _ (fun x hx => hids x (List.mem_cons_of_mem _ hx)) r hmem
      | none =>
        simp only [hf, StorageAdapter.saveRecord_eq]
        exact ih _ _ _ (fun x hx => hids x (List.mem_cons_of_mem _ hx)) r hmem

theorem tLoop_skips (gidf : Nat → String) (now : Nat) (ts : List Template)
    (idx c : Nat) (store : List Template)
    (hall : ∀ t ∈ ts, ((store.find? (fun s => s.id = t.id))).isSome) :
    importBackupTemplatesLoop gidf now ts idx c store = (c, store) := by
  induction ts generalizing idx c with
  | nil => rfl
  | cons t rest ih =>
    unfold importBackupTemplatesLoop
    cases hf : store.find? (fun s => s.id = t.id) with
    | some u =>
      simp only [hf]
      exact ih _ _ (fun x hx => hall x (List.mem_cons_of_mem _ hx))
    | none =>
      exfalso
      have := hall t (List.mem_cons_self t rest)
      rw [hf] at this
      cases this

theorem rLoop_skips (gidf : Nat → String) (now : Nat) (rs : List Rec)
    (idx c : Nat) (store : List Rec)
    (hall : ∀ r ∈ rs, ((store.find? (fun s => s.id = r.id))).isSome) :
    importBackupRecordsLoop gidf now rs idx c store = (c, store) := by
  induction rs generalizing idx c with
  | nil => rfl
  | cons r rest ih =>
    unfold importBackupRecordsLoop
    cases hf : store.find? (fun s => s.id = r.id) with
    | some u =>
      simp only [hf]
      exact ih _ _ (fun x hx => hall x (List.mem_cons_of_mem _ hx))
    | none =>
      exfalso
      have := hall r (List.mem_cons_self r rest)
      rw [hf] at this
      cases this

theorem tLoop_length (gidf : Nat → String) (now : Nat) (ts : List Template)
    (idx c : Nat) (store : List Template)
    (hids : ∀ t ∈ ts, t.id.isSome) :
    (importBackupTemplatesLoop gidf now ts idx c store).1 + store.length
      = c + ((importBackupTemplatesLoop gidf now ts idx c store).2).length := by
  induction ts generalizing idx c store with
  | nil => simp [importBackupTemplatesLoop, Nat.add_comm]
  | cons t rest ih =>
    unfold importBackupTemplatesLoop
    cases hf : store.find? (fun s => s.id = t.id) with
    | some u =>
      simp only [hf]
      exact ih _ _ _ (fun x hx => hids x (List.mem_cons_of_mem _ hx))
    | none =>
      simp only [hf, StorageAdapter.saveTemplate_eq]
      obtain ⟨i, hi⟩ := Option.isSome_iff_exists.mp (hids t (List.mem_cons_self t rest))
      simp only [hi, Option.getD_some]
      rw [hi] at hf
      have hlen := Storage.putTemplate_length_of_fresh store
        { t with id := some i, createdAt := some (t.createdAt.getD now), updatedAt := some now }
        hf
      have ihh := ih (idx + 1) (c + 1)
        (Storage.putTemplate store
          { t with id := some i, createdAt := some (t.createdAt.getD now), updatedAt := some now })
        (fun x hx => hids x (List.mem_cons_of_mem _ hx))
      omega

theorem rLoop_length (gidf : Nat → String) (now : Nat) (rs : List Rec)
    (idx c : Nat) (store : List Rec)
    (hids : ∀ r ∈ rs, r.id.isSome) :
    (importBackupRecordsLoop gidf now rs idx c store).1 + store.length
      = c + ((importBackupRecordsLoop gidf now rs idx c store).2).length := by
  induction rs generalizing idx c store with
  | nil => simp [importBackupRecordsLoop, Nat.add_comm]
  | cons r rest ih =>
    unfold importBackupRecordsLoop
    cases hf : store.find? (fun s => s.id = r.id) with
    | some u =>
      simp only [hf]
      exact ih _ _ _ (fun x hx => hids x (List.mem_cons_of_mem _ hx))
    | none =>
      simp only [hf, StorageAdapter.saveRecord_eq]
      obtain ⟨i, hi⟩ := Option.isSome_iff_exists.mp (hids r (List.mem_cons_self r rest))
      simp only [hi, Option.getD_some]
      rw [hi] at hf
      have hlen := Storage.putRecord_length_of_fresh store
        { r with id := some i, createdAt := some (r.createdAt.getD now), updatedAt := some now }
        hf
      have ihh := ih (idx + 1) (c + 1)
        (Storage.putRecord store
          { r with id := some i, createdAt := some (r.createdAt.getD now), updatedAt := some now })
        (fun x hx => hids x (List.mem_cons_of_mem _ hx))
      omega

end Export

namespace Export

/-- **C7.** Full-backup import is idempotent: `importFullBackup` persists
each contained template and record only if no entity with that id currently
exists, the reported counts equal the number of entities actually written
(the store grows by exactly that many), and importing the same backup again
writes 0 new entities and leaves both stores unchanged.  Backup entities
carry the ids they were exported with. -/
theorem importFullBackup_idempotent (backup : Backup)
    (gT gR gT' gR' : Nat → String) (now now' : Nat)
    (tstore : List Template) (rstore : List Rec)
    (htype : backup.type = "full_backup")
    (htids : ∀ t ∈ backup.templates, t.id.isSome)
    (hrids : ∀ r ∈ backup.records, r.id.isSome) :
    (importFullBackup backup gT gR now tstore rstore).isOk = true
    ∧ ∀ ti ri ts1 rs1,
        importFullBackup backup gT gR now tstore rstore = .ok (ti, ri, ts1, rs1) →
        ts1.length = tstore.length + ti
        ∧ rs1.length = rstore.length + ri
        ∧ importFullBackup backup gT' gR' now' ts1 rs1 = .ok (0, 0, ts1, rs1) := by
  have hguard : ¬ (backup.type = "" ∨ backup.type ≠ "full_backup") := by
    rw [htype]; simp
  constructor
  · unfold importFullBackup
    rw [if_neg hguard]
    rfl
  · intro ti ri ts1 rs1 heq
    unfold importFullBackup at heq
    rw [if_neg hguard] at heq
    simp only [Except.ok.injEq, Prod.mk.injEq] at heq
    obtain ⟨h1, h2, h3, h4⟩ := heq
    have hTlen := tLoop_length gT now backup.templates 0 0 tstore htids
    have hRlen := rLoop_length gR now backup.records 0 0 rstore hrids
    rw [h1, h3] at hTlen
    rw [h2, h4] at hRlen
    refine ⟨by omega, by omega, ?_⟩
    unfold importFullBackup
    rw [if_neg hguard]
    have hTskip := tLoop_skips gT' now' backup.templates 0 0 ts1
      (fun t ht => by
        have := tLoop_covers gT now backup.templates 0 0 tstore htids t ht
        rw [h3] at this
        exact this)
    have hRskip := rLoop_skips gR' now' backup.records 0 0 rs1
      (fun r hr => by
        have := rLoop_covers gR now backup.records 0 0 rstore hrids r hr
        rw [h4] at this
        exact this)
    rw [hTskip, hRskip]

/-- Witness for `importFullBackup_idempotent`: a backup holding one template
and one record imported into empty stores writes both; re-importing the same
backup into the resulting stores writes nothing and leaves them unchanged. -/
theorem importFullBackup_idempotent_witness :
    importFullBackup ⟨"1.0.0", "full_backup", [Ex.t1Template], [Ex.t1Record]⟩
        (fun _ => "g") (fun _ => "h") 5 [] []
      = .ok (1, 1, [{ Ex.t1Template with updatedAt := some 5 }],
             [{ Ex.t1Record with updatedAt := some 5 }])
    ∧ importFullBackup ⟨"1.0.0", "full_backup", [Ex.t1Template], [Ex.t1Record]⟩
        (fun _ => "g2") (fun _ => "h2") 7
        [{ Ex.t1Template with updatedAt := some 5 }]
        [{ Ex.t1Record with updatedAt := some 5 }]
      = .ok (0, 0, [{ Ex.t1Template with updatedAt := some 5 }],
             [{ Ex.t1Record with updatedAt := some 5 }]) := by
  have h := importFullBackup_idempotent
    ⟨"1.0.0", "full_backup", [Ex.t1Template], [Ex.t1Record]⟩
    (fun _ => "g") (fun _ => "h") (fun _ => "g2") (fun _ => "h2") 5 7 [] []
    rfl (by decide) (by decide)
  have hfirst : importFullBackup ⟨"1.0.0", "full_backup", [Ex.t1Template], [Ex.t1Record]⟩
      (fun _ => "g") (fun _ => "h") 5 [] []
      = .ok (1, 1, [{ Ex.t1Template with updatedAt := some 5 }],
             [{ Ex.t1Record with updatedAt := some 5 }]) := rfl
  exact ⟨hfirst, (h.2 1 1 _ _ hfirst).2.2⟩

end Export

namespace Export

theorem newRecs_all (target : Option String) (gidf : Nat → String) (now : Nat)
    (rstore : List Rec) (recs : List Rec) (idx : Nat) :
    ∀ e ∈ newRecs target gidf now rstore recs idx,
      e.templateId = target ∧ e.updatedAt = some now ∧ ∃ m, e.id = some (gidf m) := by
  induction recs generalizing idx with
  | nil => intro e he; cases he
  | cons r rest ih =>
    intro e he
    unfold newRecs at he
    by_cases hf : ((rstore.find? (fun s => s.id = r.id))).isSome
    · rw [if_pos hf] at he
      exact ih _ e he
    · rw [if_neg hf] at he
      rcases List.mem_cons.mp he with rfl | hmem
      · refine ⟨rfl, rfl, idx, rfl⟩
      · exact ih _ e hmem

theorem newRecs_length (target : Option String) (gidf : Nat → String) (now : Nat)
    (rstore : List Rec) (recs : List Rec) (idx : Nat) :
    (newRecs target gidf now rstore recs idx).length
      + recs.countP (fun r => ((rstore.find? (fun s => s.id = r.id))).isSome)
      = recs.length := by
  induction recs generalizing idx with
  | nil => rfl
  | cons r rest ih =>
    unfold newRecs
    by_cases hf : ((rstore.find? (fun s => s.id = r.id))).isSome
    · rw [if_pos hf, List.countP_cons_of_pos _ _ (by simpa using hf)]
      have := ih (idx + 1)
      simp only [List.length_cons]
      omega
    · rw [if_neg hf, List.countP_cons_of_neg _ _ (by simpa using hf)]
      have := ih (idx + 1)
      simp only [List.length_cons]
      omega

theorem importRecordsLoop_eq (target : Option String) (gidf : Nat → String) (now : Nat)
    (rstore : List Rec) (recs : List Rec) (idx imported skipped : Nat) (extra : List Rec)
    (hfreshStore : ∀ n, ∀ s ∈ rstore, ¬ (some (gidf n) = s.id))
    (hfreshPack : ∀ n, ∀ r ∈ recs, ¬ (some (gidf n) = r.id))
    (hinj : ∀ m n : Nat, gidf m = gidf n → m = n)
    (hextra : ∀ e ∈ extra, ∃ m, m < idx ∧ e.id = some (gidf m)) :
    importRecordsLoop target gidf now recs idx imported skipped (rstore ++ extra)
      = (imported + (newRecs target gidf now rstore recs idx).length,
         skipped + recs.countP (fun r => ((rstore.find? (fun s => s.id = r.id))).isSome),
         (rstore ++ extra) ++ newRecs target gidf now rstore recs idx) := by
  induction recs generalizing idx imported skipped extra with
  | nil => simp [importRecordsLoop, newRecs]
  | cons r rest ih =>
    have hextra_none : extra.find? (fun s => s.id = r.id) = none := by
      rw [List.find?_eq_none]
      intro e he hpe
      obtain ⟨m, _, hm⟩ := hextra e he
      have : e.id = r.id := of_decide_eq_true hpe
      exact hfreshPack m r (List.mem_cons_self r rest) (hm ▸ this)
    have hsplit : (rstore ++ extra).find? (fun s => s.id = r.id)
        = rstore.find? (fun s => s.id = r.id) := by
      rw [List.find?_append, hextra_none, Option.or_none]
    unfold importRecordsLoop
    rw [hsplit]
    cases hf : rstore.find? (fun s => s.id = r.id) with
    | some u =>
      simp only
      have hrec := ih (idx + 1) imported (skipped + 1) extra
        (fun n r' hr' => hfreshPack n r' (List.mem_cons_of_mem _ hr'))
        (fun e he => by
          obtain ⟨m, hm1, hm2⟩ := hextra e he
          exact ⟨m, Nat.lt_succ_of_lt hm1, hm2⟩)
      rw [hrec]
      simp only [newRecs]
      rw [if_pos (by rw [hf]; rfl),
          List.countP_cons_of_pos _ _ (by rw [hf]; rfl)]
      simp only [Prod.mk.injEq]
      exact ⟨trivial, by omega, trivial⟩
    | none =>
      simp only
      rw [StorageAdapter.saveRecord_eq]
      have hput : Storage.putRecord (rstore ++ extra)
            { ({ r with templateId := target, id := some (gidf idx) } : Rec) with
                id := some ((some (gidf idx)).getD (gidf idx)),
                createdAt := some (r.createdAt.getD now), updatedAt := some now }
          = (rstore ++ extra) ++ [importSaved target gidf now r idx] := by
        unfold Storage.putRecord
        rw [if_neg ?hany]
        case hany =>
          intro hc
          rcases List.any_eq_true.mp hc with ⟨x, hx, hpx⟩
          have hxid : x.id = some (gidf idx) := by simpa using of_decide_eq_true hpx
          rcases List.mem_append.mp hx with hxs | hxe
          · exact hfreshStore idx x hxs hxid.symm
          · obtain ⟨m, hm1, hm2⟩ := hextra x hxe
            rw [hm2] at hxid
            have := hinj m idx (by simpa using hxid)
            omega
        rfl
      simp only []
      rw [hput]
      have hrec := ih (idx + 1) (imported + 1) skipped (extra ++ [importSaved target gidf now r idx])
        (fun n r' hr' => hfreshPack n r' (List.mem_cons_of_mem _ hr'))
        (fun e he => by
          rcases List.mem_append.mp he with he' | he'
          · obtain ⟨m, hm1, hm2⟩ := hextra e he'
            exact ⟨m, Nat.lt_succ_of_lt hm1, hm2⟩
          · rw [List.mem_singleton.mp he']
            exact ⟨idx, Nat.lt_succ_self idx, rfl⟩)
      rw [List.append_assoc rstore extra [importSaved target gidf now r idx], hrec]
      simp only [newRecs]
      rw [if_neg (by rw [hf]; simp),
          List.countP_cons_of_neg _ _ (by rw [hf]; simp)]
      simp only [Prod.mk.injEq]
      refine ⟨by simp only [List.length_cons]; omega, trivial, by simp [List.append_assoc]⟩

end Export

namespace Export

/-- **C5.** `importRecordsPack` (adapter in browser mode) rejects any pack
whose `type` is not `records`; for a pack carrying a template id it resolves
the target template by that id, falls back to a name lookup over all
templates when the id is absent locally, and fails when neither resolves;
on success it processes each incoming record, skipping exactly those whose
id already exists locally and persisting every other under a fresh id and
the resolved templateId, reporting imported / skipped / total counts with
`imported + skipped = total`.  Fresh ids are assumed not to collide with
stored or pack ids (`generateId` collision resistance). -/
theorem importRecordsPack_spec (pack : RecordsPack) (gidf : Nat → String) (now : Nat)
    (tstore : List Template) (rstore : List Rec)
    (recs : List Rec) (info : TemplateInfo) (tid : String)
    (htype : pack.type = "records")
    (hrecs : pack.records = some recs)
    (hinfo : pack.templateInfo = some info)
    (hid : info.id = some tid)
    (hfreshStore : ∀ n, ∀ s ∈ rstore, ¬ (some (gidf n) = s.id))
    (hfreshPack : ∀ n, ∀ r ∈ recs, ¬ (some (gidf n) = r.id))
    (hinj : ∀ m n : Nat, gidf m = gidf n → m = n) :
    (∀ q : RecordsPack, ¬ q.type = "records" →
        ∃ msg, importRecordsPack q gidf now tstore rstore = .error msg)
    ∧ (∀ u, Storage.getTemplateById tstore tid = some u →
        importRecordsPack pack gidf now tstore rstore
          = .ok ({ imported := (newRecs (some tid) gidf now rstore recs 0).length,
                   skipped := recs.countP
                     (fun r => ((rstore.find? (fun s => s.id = r.id))).isSome),
                   total := recs.length },
                 rstore ++ newRecs (some tid) gidf now rstore recs 0))
    ∧ (∀ tb, Storage.getTemplateById tstore tid = none →
        (Storage.getAllTemplates tstore).find? (fun t => some t.name = info.name) = some tb →
        importRecordsPack pack gidf now tstore rstore
          = .ok ({ imported := (newRecs tb.id gidf now rstore recs 0).length,
                   skipped := recs.countP
                     (fun r => ((rstore.find? (fun s => s.id = r.id))).isSome),
                   total := recs.length },
                 rstore ++ newRecs tb.id gidf now rstore recs 0))
    ∧ (Storage.getTemplateById tstore tid = none →
        (Storage.getAllTemplates tstore).find? (fun t => some t.name = info.name) = none →
        importRecordsPack pack gidf now tstore rstore
          = .error "导入数据包失败: 找不到对应的模板，请先导入模板")
    ∧ (∀ target, ∀ e ∈ newRecs target gidf now rstore recs 0,
        e.templateId = target ∧ ∃ m, e.id = some (gidf m))
    ∧ (∀ target, (newRecs target gidf now rstore recs 0).length
        + recs.countP (fun r => ((rstore.find? (fun s => s.id = r.id))).isSome)
        = recs.length) := by
  have hguard : ¬ (pack.type = "" ∨ pack.type ≠ "records") := by
    rw [htype]; simp
  have hloop : ∀ target : Option String,
      importRecordsLoop target gidf now recs 0 0 0 rstore
        = ((newRecs target gidf now rstore recs 0).length,
           recs.countP (fun r => ((rstore.find? (fun s => s.id = r.id))).isSome),
           rstore ++ newRecs target gidf now rstore recs 0) := by
    intro target
    have h := importRecordsLoop_eq target gidf now rstore recs 0 0 0 []
      hfreshStore hfreshPack hinj (by simp)
    rw [List.append_nil] at h
    simpa using h
  refine ⟨?_, ?_, ?_, ?_, ?_, ?_⟩
  · intro q hq
    refine ⟨"导入数据包失败: 无效的数据包格式", ?_⟩
    unfold importRecordsPack
    cases hqr : q.records with
    | none => simp only []
    | some qs =>
      simp only []
      rw [if_pos (Or.inr hq)]
  · intro u hu
    unfold importRecordsPack
    rw [hrecs]
    simp only []
    rw [if_neg hguard]
    simp only [hinfo, Option.some_bind, hid, hu]
    rw [hloop (some tid)]
  · intro tb hu hname
    unfold importRecordsPack
    rw [hrecs]
    simp only []
    rw [if_neg hguard]
    simp only [hinfo, Option.some_bind, hid, hu, hname]
    rw [hloop tb.id]
  · intro hu hname
    unfold importRecordsPack
    rw [hrecs]
    simp only []
    rw [if_neg hguard]
    simp only [hinfo, Option.some_bind, hid, hu, hname]
  · intro target e he
    have h := newRecs_all target gidf now rstore recs 0 e he
    exact ⟨h.1, h.2.2⟩
  · intro target
    exact newRecs_length target gidf now rstore recs 0

end Export

namespace Ex

theorem gidfW_ne (n : Nat) (c : Char) (s : List Char) (hc : ¬ c = 'g') :
    ¬ gidfW n = ⟨c :: s⟩ := by
  intro h
  have hd := congrArg String.data h
  simp only [gidfW, List.replicate_succ] at hd
  injection hd with h1 _
  exact hc h1.symm

theorem gidfW_inj (m n : Nat) (h : gidfW m = gidfW n) : m = n := by
  have hl := congrArg (fun s : String => s.data.length) h
  simp only [gidfW, List.length_replicate] at hl
  omega

end Ex

namespace Export

/-- Witness for `importRecordsPack_spec`: a pack of two records for the
locally present template `t1`; the record whose id `r1` already exists is
skipped, the other is persisted under the fresh id `gg` and templateId
`t1`; counts are `imported = 1`, `skipped = 1`, `total = 2`. -/
theorem importRecordsPack_spec_witness :
    importRecordsPack
        ⟨"1.0.0", "records", some ⟨some "t1", some "A"⟩,
         some [Ex.t1Record, ⟨some "r2", some "told", none, [], [], some 2, some 2⟩]⟩
        Ex.gidfW 50 [Ex.t1Template] [Ex.t1Record]
      = .ok ({ imported := 1, skipped := 1, total := 2 },
             [Ex.t1Record, ⟨some "gg", some "t1", none, [], [], some 2, some 50⟩]) := by
  have hfreshStore : ∀ n, ∀ s ∈ [Ex.t1Record], ¬ (some (Ex.gidfW n) = s.id) := by
    intro n s hs h
    rw [List.mem_singleton.mp hs] at h
    exact Ex.gidfW_ne n 'r' ['1'] (by decide) (by simpa [Ex.t1Record] using h)
  have hfreshPack : ∀ n, ∀ r ∈
      [Ex.t1Record, (⟨some "r2", some "told", none, [], [], some 2, some 2⟩ : Rec)],
      ¬ (some (Ex.gidfW n) = r.id) := by
    intro n r hr h
    rcases List.mem_cons.mp hr with rfl | hr'
    · exact Ex.gidfW_ne n 'r' ['1'] (by decide) (by simpa [Ex.t1Record] using h)
    · rw [List.mem_singleton.mp hr'] at h
      exact Ex.gidfW_ne n 'r' ['2'] (by decide) (by simpa using h)
  have h := importRecordsPack_spec
    ⟨"1.0.0", "records", some ⟨some "t1", some "A"⟩,
     some [Ex.t1Record, ⟨some "r2", some "told", none, [], [], some 2, some 2⟩]⟩
    Ex.gidfW 50 [Ex.t1Template] [Ex.t1Record]
    [Ex.t1Record, ⟨some "r2", some "told", none, [], [], some 2, some 2⟩]
    ⟨some "t1", some "A"⟩ "t1"
    rfl rfl rfl rfl hfreshStore hfreshPack Ex.gidfW_inj
  exact (h.2.1 Ex.t1Template rfl).trans (by rfl)

end Export

namespace Export

theorem countP_name_replace (store : List Template) (saved : Template) (nm : String)
    (hname : saved.name = nm)
    (hcount : store.countP (fun u => u.id = saved.id) = 1)
    (hnm : ∀ u ∈ store, u.name = nm → u.id = saved.id) :
    (Storage.putTemplate store saved).countP (fun u => u.name = nm) = 1 := by
  have hany : store.any (fun u => u.id = saved.id) = true := by
    by_cases h : store.any (fun u => u.id = saved.id) = true
    · exact h
    · exfalso
      have h0 : store.countP (fun u => u.id = saved.id) = 0 := by
        rw [List.countP_eq_zero]
        intro a ha hpa
        exact h (List.any_eq_true.mpr ⟨a, ha, hpa⟩)
      omega
  unfold Storage.putTemplate
  rw [if_pos hany]
  clear hany
  induction store with
  | nil => simp at hcount
  | cons u t ih =>
    by_cases hu : u.id = saved.id
    · have hcons : (u :: t).map (fun v => if v.id = saved.id then saved else v)
          = saved :: t.map (fun v => if v.id = saved.id then saved else v) := by
        simp [hu]
      rw [hcons, List.countP_cons_of_pos _ _ (by simp [hname])]
      rw [List.countP_cons_of_pos _ _ (by simpa using hu)] at hcount
      have htc : t.countP (fun v => v.id = saved.id) = 0 := by omega
      have hzero : (t.map (fun v => if v.id = saved.id then saved else v)).countP
          (fun v => v.name = nm) = 0 := by
        rw [List.countP_eq_zero]
        intro a ha hpa
        rcases List.mem_map.mp ha with ⟨v, hv, rfl⟩
        by_cases hvd : v.id = saved.id
        · exact (List.countP_eq_zero.mp htc v hv) (by simpa using hvd)
        · rw [if_neg hvd] at hpa
          exact hvd (hnm v (List.mem_cons_of_mem _ hv) (by simpa using hpa))
      rw [hzero]
    · have hcons : (u :: t).map (fun v => if v.id = saved.id then saved else v)
          = u :: t.map (fun v => if v.id = saved.id then saved else v) := by
        simp [hu]
      have hun : ¬ (u.name = nm) := fun hn => hu (hnm u (List.mem_cons_self u t) hn)
      rw [hcons, List.countP_cons_of_neg _ _ (by simpa using hun)]
      rw [List.countP_cons_of_neg _ _ (by simpa using hu)] at hcount
      exact ih hcount (fun v hv hn => hnm v (List.mem_cons_of_mem _ hv) hn)

end Export

namespace Export

/-- **C4 (amended).** `importTemplatePack` (adapter in browser mode), for a
pack whose template `T` matches an existing template by id or by name:
`skip` persists nothing and reports a skipped outcome; `overwrite` persists
the imported template under the preferred existing id — the id match's id
when present, else the name match's — and, when exactly one stored template
carries that id and every template named `T.name` carries it, exactly one
template with that name remains; `rename` persists a second template under
a fresh id with the disambiguating suffix appended to the name and
`createdAt` cleared (hence re-stamped); and with no match any strategy
behaves as a fresh create with a new id and cleared `createdAt`.  Invalid
packs are rejected. -/
theorem importTemplatePack_spec (pack : TemplatePack) (T : Template)
    (gid gid2 suffix : String) (now1 now2 : Nat) (store : List Template)
    (htype : pack.type = "template")
    (htmpl : pack.template = some T) :
    (∀ strat : ConflictStrategy, ∀ q : TemplatePack, ¬ q.type = "template" →
        ∃ msg, importTemplatePack q strat gid gid2 suffix now1 now2 store = .error msg)
    ∧ ((((Storage.getAllTemplates store).find? (fun t => t.id = T.id)).isSome
          ∨ ((Storage.getAllTemplates store).find? (fun t => t.name = T.name)).isSome) →
        importTemplatePack pack .skip gid gid2 suffix now1 now2 store
          = .ok ({ action := "skipped", template := none }, store))
    ∧ (∀ p, ((((Storage.getAllTemplates store).find? (fun t => t.id = T.id)).bind (·.id)).or
              (((Storage.getAllTemplates store).find? (fun t => t.name = T.name)).bind (·.id)))
            = some p →
        importTemplatePack pack .overwrite gid gid2 suffix now1 now2 store
          = .ok ({ action := "overwritten", template := some (overwriteSaved T p now1 now2) },
                 Storage.putTemplate store (overwriteSaved T p now1 now2)))
    ∧ (∀ u i, (Storage.getAllTemplates store).find? (fun t => t.id = T.id) = some u →
        u.id = some i →
        ((((Storage.getAllTemplates store).find? (fun t => t.id = T.id)).bind (·.id)).or
          (((Storage.getAllTemplates store).find? (fun t => t.name = T.name)).bind (·.id)))
          = some i)
    ∧ (∀ p res st',
        ((((Storage.getAllTemplates store).find? (fun t => t.id = T.id)).bind (·.id)).or
          (((Storage.getAllTemplates store).find? (fun t => t.name = T.name)).bind (·.id)))
          = some p →
        store.countP (fun u => u.id = some p) = 1 →
        (∀ u ∈ store, u.name = T.name → u.id = some p) →
        importTemplatePack pack .overwrite gid gid2 suffix now1 now2 store = .ok (res, st') →
        st'.countP (fun u => u.name = T.name) = 1)
    ∧ ((((Storage.getAllTemplates store).find? (fun t => t.id = T.id)).isSome
          ∨ ((Storage.getAllTemplates store).find? (fun t => t.name = T.name)).isSome) →
        (∀ u ∈ store, ¬ u.id = some gid) →
        importTemplatePack pack .rename gid gid2 suffix now1 now2 store
          = .ok ({ action := "renamed", template := some (renameSaved T gid suffix now1 now2) },
                 store ++ [renameSaved T gid suffix now1 now2]))
    ∧ ((Storage.getAllTemplates store).find? (fun t => t.id = T.id) = none →
        (Storage.getAllTemplates store).find? (fun t => t.name = T.name) = none →
        (∀ u ∈ store, ¬ u.id = some gid) →
        ∀ strat, importTemplatePack pack strat gid gid2 suffix now1 now2 store
          = .ok ({ action := "created", template := some (createdSaved T gid now1 now2) },
                 store ++ [createdSaved T gid now1 now2])) := by
  have hguard : ¬ (pack.type = "" ∨ pack.type ≠ "template") := by
    rw [htype]; simp
  have happend : ∀ X : Template, (∀ u ∈ store, ¬ u.id = some gid) → X.id = some gid →
      Storage.putTemplate store X = store ++ [X] := by
    intro X hfresh hX
    unfold Storage.putTemplate
    rw [if_neg]
    intro hc
    rcases List.any_eq_true.mp hc with ⟨u, hu, hpu⟩
    rw [hX] at hpu
    exact hfresh u hu (of_decide_eq_true hpu)
  have hover : ∀ p, ((((Storage.getAllTemplates store).find? (fun t => t.id = T.id)).bind (·.id)).or
        (((Storage.getAllTemplates store).find? (fun t => t.name = T.name)).bind (·.id)))
        = some p →
      importTemplatePack pack .overwrite gid gid2 suffix now1 now2 store
        = .ok ({ action := "overwritten", template := some (overwriteSaved T p now1 now2) },
               Storage.putTemplate store (overwriteSaved T p now1 now2)) := by
    intro p hp
    have hmatch : (((Storage.getAllTemplates store).find? (fun t => t.id = T.id)).isSome
        ∨ ((Storage.getAllTemplates store).find? (fun t => t.name = T.name)).isSome) := by
      cases hbyId : (Storage.getAllTemplates store).find? (fun t => t.id = T.id) with
      | some u => exact Or.inl rfl
      | none =>
        rw [hbyId] at hp
        simp only [Option.none_bind, Option.none_or] at hp
        cases hbyName : (Storage.getAllTemplates store).find? (fun t => t.name = T.name) with
        | some u => exact Or.inr rfl
        | none => rw [hbyName] at hp; cases hp
    unfold importTemplatePack
    rw [htmpl]
    simp only []
    rw [if_neg hguard, if_pos hmatch]
    rw [hp, StorageAdapter.saveTemplate_eq]
    rfl
  refine ⟨?_, ?_, hover, ?_, ?_, ?_, ?_⟩
  · intro strat q hq
    refine ⟨"导入模板包失败: 无效的模板包格式", ?_⟩
    unfold importTemplatePack
    cases hqr : q.template with
    | none => simp only []
    | some qs =>
      simp only []
      rw [if_pos (Or.inr hq)]
  · intro hmatch
    unfold importTemplatePack
    rw [htmpl]
    simp only []
    rw [if_neg hguard, if_pos hmatch]
  · intro u i hbyId hui
    rw [hbyId]
    simp only [Option.some_bind]
    rw [hui]
    rfl
  · intro p res st' hp hcount hnm heq
    rw [hover p hp] at heq
    simp only [Except.ok.injEq, Prod.mk.injEq] at heq
    obtain ⟨-, hst⟩ := heq
    subst hst
    exact countP_name_replace store (overwriteSaved T p now1 now2) T.name rfl hcount hnm
  · intro hmatch hfresh
    unfold importTemplatePack
    rw [htmpl]
    simp only []
    rw [if_neg hguard, if_pos hmatch]
    rw [StorageAdapter.saveTemplate_eq]
    rw [happend _ hfresh rfl]
    rfl
  · intro hbyId hbyName hfresh strat
    unfold importTemplatePack
    rw [htmpl]
    simp only []
    rw [if_neg hguard]
    rw [hbyId, hbyName]
    rw [if_neg (by simp)]
    rw [StorageAdapter.saveTemplate_eq]
    rw [happend _ hfresh rfl]
    rfl

end Export

namespace Export

/-- **C4 (counterexample).** The pack whose template carries the id of the
stored template named `A` (`t1`) and the name of the other stored template
(`Invoice`, under `t2`) matches by both criteria; the `overwrite` strategy
persists under the preferred id-match `t1`, so after the import TWO
templates named `Invoice` remain (`t1` and `t2`), refuting the claim that
exactly one template with that name remains — even though exactly one
existed before. -/
theorem importTemplatePack_overwrite_counterexample :
    Ex.crossStore.countP (fun u => u.name = "Invoice") = 1
    ∧ (importTemplatePack Ex.crossPack .overwrite "g" "g2" "s" 10 11 Ex.crossStore).toOption.map
        (fun out => out.1.action) = some "overwritten"
    ∧ (importTemplatePack Ex.crossPack .overwrite "g" "g2" "s" 10 11 Ex.crossStore).toOption.map
        (fun out => out.2.countP (fun u => u.name = "Invoice")) = some 2 := by
  refine ⟨by decide, by decide, by decide⟩

/-- Witness for `importTemplatePack_spec`: the spec's own scenario — a pack
named `Invoice` imported while one template named `Invoice` exists.
`skip` leaves the store unchanged with a skipped outcome; `overwrite`
persists under the existing id `t1` and exactly one `Invoice` remains;
`rename` adds a second template under the fresh id `g` with the suffixed
name; importing into an empty store creates afresh. -/
theorem importTemplatePack_spec_witness :
    importTemplatePack Ex.invPack .skip "g" "g2" "s" 10 11 Ex.invStore
        = .ok ({ action := "skipped", template := none }, Ex.invStore)
    ∧ importTemplatePack Ex.invPack .overwrite "g" "g2" "s" 10 11 Ex.invStore
        = .ok ({ action := "overwritten", template := some (overwriteSaved Ex.invT "t1" 10 11) },
               Storage.putTemplate Ex.invStore (overwriteSaved Ex.invT "t1" 10 11))
    ∧ (∀ res st', importTemplatePack Ex.invPack .overwrite "g" "g2" "s" 10 11 Ex.invStore
          = .ok (res, st') → st'.countP (fun u => u.name = "Invoice") = 1)
    ∧ importTemplatePack Ex.invPack .rename "g" "g2" "s" 10 11 Ex.invStore
        = .ok ({ action := "renamed", template := some (renameSaved Ex.invT "g" "s" 10 11) },
               Ex.invStore ++ [renameSaved Ex.invT "g" "s" 10 11])
    ∧ importTemplatePack Ex.invPack .overwrite "g" "g2" "s" 10 11 []
        = .ok ({ action := "created", template := some (createdSaved Ex.invT "g" 10 11) },
               [] ++ [createdSaved Ex.invT "g" 10 11]) := by
  have h := importTemplatePack_spec Ex.invPack Ex.invT "g" "g2" "s" 10 11 Ex.invStore rfl rfl
  have h0 := importTemplatePack_spec Ex.invPack Ex.invT "g" "g2" "s" 10 11 [] rfl rfl
  refine ⟨h.2.1 (by decide), h.2.2.1 "t1" (by decide), ?_, ?_, ?_⟩
  · intro res st' heq
    exact h.2.2.2.2.1 "t1" res st' (by decide) (by decide) (by decide) heq
  · exact h.2.2.2.2.2.1 (by decide) (by decide)
  · exact h0.2.2.2.2.2.2 (by decide) (by decide) (by decide) ConflictStrategy.overwrite

end Export
